import Mathlib

/-!
Verification development for the ExpeditedAccess automation tool
(`openSesame.py`).  The Python source is shallowly embedded: pure helpers
become Lean functions, the stateful orchestration loop becomes an explicit
trace-producing function over an abstract environment (the sequence of
observations the loop would make), and wall-clock time is discretised to
whole milliseconds (the code only ever compares times and sleeps fixed
tick lengths, so this is faithful).  Floating point delays are modelled
as rationals.
-/

/-! ### Python string helpers

`str.split()` (no argument), `str.lower()`, `str.replace("-", " ")`,
`str.startswith`, and the `in` substring test, as used by
`_evaluate_assignment_screen`.  All are implemented by structural
recursion on character lists so that concrete instances reduce in the
kernel. -/

/-- Python `str.split()` (split on whitespace runs, dropping empties),
on a character list; the accumulator holds the current word reversed. -/
def wordsAux : List Char → List Char → List (List Char)
  | [], acc => if acc.isEmpty then [] else [acc.reverse]
  | c :: rest, acc =>
    if c.isWhitespace then
      (if acc.isEmpty then wordsAux rest [] else acc.reverse :: wordsAux rest [])
    else wordsAux rest (c :: acc)

/-- Python `text.split()` of a string: the list of whitespace-separated
words (as character lists). -/
def pyWords (s : String) : List (List Char) :=
  wordsAux s.data []

/-- Python `len(text.split())`: the number of whitespace-separated words. -/
def pyWordCount (s : String) : Nat :=
  (pyWords s).length

/-- Join a list of words with single spaces (the `" ".join(...)` step of
`_norm`). -/
def joinSpace : List (List Char) → List Char
  | [] => []
  | [w] => w
  | w :: ws => w ++ ' ' :: joinSpace ws

/-- The source's `_norm`: lowercase, then collapse all whitespace runs to
single spaces (the `.strip()` is subsumed by `.split()`). -/
def normChars (s : List Char) : List Char :=
  joinSpace (wordsAux (s.map Char.toLower) [])

/-- Python `needle in hay` on character lists. -/
def listContains (needle : List Char) : List Char → Bool
  | [] => needle.isEmpty
  | c :: rest => needle.isPrefixOf (c :: rest) || listContains needle rest

/-- Python `needle in hay` for strings. -/
def strContains (hay needle : String) : Bool :=
  listContains needle.data hay.data

/-- Python `needle in hay` where the haystack is already a character
list. -/
def charsContain (hay : List Char) (needle : String) : Bool :=
  listContains needle.data hay

/-! ### Screen Classifier (`_evaluate_assignment_screen`) -/

/-- One OCR result `(x_min, y_min, x_max, y_max, text, confidence)` as
produced by `_detect_text_regions`.  The confidence score is a float the
classifier never reads; it is carried as a rational. -/
structure Detection where
  xMin : Int
  yMin : Int
  xMax : Int
  yMax : Int
  text : String
  conf : ℚ
deriving DecidableEq, Repr

/-- The classification statuses: the four return values of
`_evaluate_assignment_screen` plus `ocr_failed`, the status the caller
substitutes when capture or detection raises. -/
inductive OcrStatus
  | title_missing
  | label_missing
  | single_user
  | multiple_users
  | ocr_failed
deriving DecidableEq, Repr

/-- The source's `_is_title`: tolerant match for the wizard title phrase.
Note `t.replace("-", " ")` is a single-character replacement, modelled as
a character map. -/
def is_title (s : String) : Bool :=
  let t := normChars s.data
  if charsContain t "select the people you" then true
  else if charsContain t "access level assignment wizard" then true
  else if charsContain t "access level assignment" then true
  else
    let ws := wordsAux (t.map (fun c => if c = '-' then ' ' else c)) []
    let hasAssign := ws.any (fun w => "assign".data.isPrefixOf w)
    let hasWiz := ws.any (fun w => "wiz".data.isPrefixOf w)
    ws.contains "access".data && ws.contains "level".data && hasAssign && hasWiz

/-- The source's `_is_label`: `kind in _norm(s)`. -/
def is_label (s : String) (kind : String) : Bool :=
  charsContain (normChars s.data) kind

/-- Scan the detections in order for the first whose text matches the
title phrase; return its lower edge `y_max`. -/
def findTitleY : List Detection → Option Int
  | [] => none
  | d :: rest => if is_title d.text then some d.yMax else findTitleY rest

/-- Stable insertion (by `y_min`) used to model Python's stable
`list.sort(key=lambda d: d[1])`. -/
def insertByY (d : Detection) : List Detection → List Detection
  | [] => [d]
  | e :: rest => if d.yMin ≤ e.yMin then d :: e :: rest else e :: insertByY d rest

/-- Stable sort by `y_min` (insertion sort; elements with equal keys keep
their original order, as in Python). -/
def sortByY : List Detection → List Detection
  | [] => []
  | d :: rest => insertByY d (sortByY rest)

/-- First detection in the list whose text contains the given label
phrase. -/
def findLabelBy (kind : String) : List Detection → Option Detection
  | [] => none
  | d :: rest => if is_label d.text kind then some d else findLabelBy kind rest

/-- The label search of `_evaluate_assignment_screen`: among detections
strictly below the title's lower edge, ordered by vertical position, the
first "last name" match, else the first "first name" match. -/
def findLabel (detections : List Detection) (title_y : Int) : Option Detection :=
  let below_title := sortByY (detections.filter (fun d => decide (title_y < d.yMin)))
  match findLabelBy "last name" below_title with
  | some d => some d
  | none => findLabelBy "first name" below_title

/-- The `constraint_bounds` dict returned by the classifier. -/
structure ConstraintBounds where
  label_y : Int
  label_x_min : Int
  y_max : Int
  x_max : Int
deriving DecidableEq, Repr

/-- The source's `_evaluate_assignment_screen`.  (The `log_action` call
that prints the in-box word count is a pure logging side effect and is
omitted here; the classification value does not depend on it.) -/
def evaluate_assignment_screen (detections : List Detection) :
    OcrStatus × List Detection × Option ConstraintBounds :=
  match findTitleY detections with
  | none => (.title_missing, [], none)
  | some title_y =>
    match findLabel detections title_y with
    | none => (.label_missing, [], none)
    | some lb =>
      let label_y := lb.yMax
      let label_x_min := lb.xMin
      let cropped_detections := detections.filter (fun d => decide (label_x_min ≤ d.xMin))
      let constraint_y_max := label_y + 100 + 5
      let constraint_x_max := label_x_min + 100
      let bounds : ConstraintBounds :=
        { label_y := label_y + 5, label_x_min := label_x_min,
          y_max := constraint_y_max, x_max := constraint_x_max }
      let below := cropped_detections.filter
        (fun d => decide (label_y < d.yMin) && decide (d.yMin ≤ constraint_y_max) &&
                  decide (d.xMin ≤ constraint_x_max))
      if below.isEmpty then (.single_user, [lb], some bounds)
      else
        let word_count := (below.map (fun d => pyWordCount d.text)).sum
        ((if 2 < word_count then OcrStatus.multiple_users else OcrStatus.single_user),
          lb :: below, some bounds)

/-- Membership test for the classifier's counting window, phrased
directly from the claim: left edge not left of the label's left edge, top
edge strictly below the label's lower edge, at most 105 units below it
(100 plus the 5-unit tolerance), and at most 100 units right of the
label's left edge. -/
def windowPred (label_x_min label_y : Int) (d : Detection) : Bool :=
  decide (label_x_min ≤ d.xMin) && decide (label_y < d.yMin) &&
  decide (d.yMin ≤ label_y + 100 + 5) && decide (d.xMin ≤ label_x_min + 100)

/-- Total number of words across the detections inside the counting
window. -/
def windowWordCount (detections : List Detection) (label_x_min label_y : Int) : Nat :=
  ((detections.filter (windowPred label_x_min label_y)).map (fun d => pyWordCount d.text)).sum

/-! ### Configuration (`Config` dataclass) -/

/-- The `Config` dataclass.  Delays are seconds as rationals; the three
offsets are 2D integer coordinates relative to the window's top-left
corner. -/
structure Config where
  click_delay : ℚ := 0.05
  key_delay : ℚ := 0.05
  between_users_delay : ℚ := 0.05
  assign_access_offset : Int × Int := (465, 59)
  tab_2_click_rel : Int × Int := (650, 300)
  netid_field_click_rel : Int × Int := (1080, 444)
  debug_actions : Bool := true
deriving DecidableEq, Repr

/-- The source's `_default_config()`. -/
def default_config : Config := {}

/-! ### Persisted settings (`_config_to_dict`, `_dict_to_config`,
`_read_config_from_advanced`) -/

/-- A value in the persisted settings document: a number (delay) or a
coordinate pair. -/
inductive SettingsVal
  | num (q : ℚ)
  | coords (x y : Int)
deriving DecidableEq, Repr

/-- The source's `_config_to_dict`: note it serialises the three delays
and three offsets only — the `debug_actions` flag is never written. -/
def config_to_dict (cfg : Config) : List (String × SettingsVal) :=
  [("click_delay", .num cfg.click_delay),
   ("key_delay", .num cfg.key_delay),
   ("between_users_delay", .num cfg.between_users_delay),
   ("assign_access_offset", .coords cfg.assign_access_offset.1 cfg.assign_access_offset.2),
   ("tab_2_click_rel", .coords cfg.tab_2_click_rel.1 cfg.tab_2_click_rel.2),
   ("netid_field_click_rel", .coords cfg.netid_field_click_rel.1 cfg.netid_field_click_rel.2)]

/-- Python `d.get(key, default)` on the settings document. -/
def dictGet (d : List (String × SettingsVal)) (k : String) : Option SettingsVal :=
  (d.find? (fun p => p.1 == k)).map (fun p => p.2)

/-- Read a numeric entry, falling back to the default (matching
`float(d.get(k, default))`). -/
def getNum (d : List (String × SettingsVal)) (k : String) (dflt : ℚ) : ℚ :=
  match dictGet d k with
  | some (.num q) => q
  | _ => dflt

/-- Read a coordinate entry, falling back to the default. -/
def getCoords (d : List (String × SettingsVal)) (k : String) (dflt : Int × Int) : Int × Int :=
  match dictGet d k with
  | some (.coords x y) => (x, y)
  | _ => dflt

/-- The source's `_dict_to_config`: each field from the document with the
in-file default as fallback, and `debug_actions=True` unconditionally. -/
def dict_to_config (d : List (String × SettingsVal)) : Config :=
  { click_delay := getNum d "click_delay" default_config.click_delay,
    key_delay := getNum d "key_delay" default_config.key_delay,
    between_users_delay := getNum d "between_users_delay" default_config.between_users_delay,
    assign_access_offset := getCoords d "assign_access_offset" default_config.assign_access_offset,
    tab_2_click_rel := getCoords d "tab_2_click_rel" default_config.tab_2_click_rel,
    netid_field_click_rel := getCoords d "netid_field_click_rel" default_config.netid_field_click_rel,
    debug_actions := true }

/-- Python `s.isdigit()` for ASCII digit strings. -/
def pyIsDigit (s : String) : Bool :=
  !s.isEmpty && s.data.all Char.isDigit

/-- Numeric value of a digit string (`int(s)` on an `isdigit` string). -/
def digitsVal (s : String) : Nat :=
  s.data.foldl (fun n c => n * 10 + (c.toNat - 48)) 0

/-- The source's `parse_pos_int` helper inside
`_read_config_from_advanced`. -/
def parse_pos_int (s : String) (name : String) : Except String Int :=
  if !pyIsDigit s then .error (name ++ " must be a positive whole number.")
  else if digitsVal s ≤ 0 then .error (name ++ " must be a positive whole number.")
  else .ok (digitsVal s : Nat)

/-- The source's `_read_config_from_advanced`.  The three delay fields
arrive as `Option ℚ`: `none` models `float(...)` raising on a
non-numeric entry (the `try` block turns any of the three failing into
the single "Delays must be numbers" error).  The six coordinate fields
arrive as the raw entry strings. -/
def read_config_from_advanced
    (click_s key_s between_s : Option ℚ)
    (assign_x_s assign_y_s tab_x_s tab_y_s netid_x_s netid_y_s : String) :
    Except String Config :=
  match click_s, key_s, between_s with
  | some cd, some kd, some bd =>
    if cd < 0 ∨ kd < 0 ∨ bd < 0 then .error "Delays must be non-negative."
    else
      match parse_pos_int assign_x_s "ASSIGN_ACCESS_OFFSET x" with
      | .error e => .error e
      | .ok ax =>
      match parse_pos_int assign_y_s "ASSIGN_ACCESS_OFFSET y" with
      | .error e => .error e
      | .ok ay =>
      match parse_pos_int tab_x_s "TAB_2_CLICK_REL x" with
      | .error e => .error e
      | .ok tx =>
      match parse_pos_int tab_y_s "TAB_2_CLICK_REL y" with
      | .error e => .error e
      | .ok ty =>
      match parse_pos_int netid_x_s "NETID_FIELD_CLICK_REL x" with
      | .error e => .error e
      | .ok nx =>
      match parse_pos_int netid_y_s "NETID_FIELD_CLICK_REL y" with
      | .error e => .error e
      | .ok ny =>
        .ok { click_delay := cd, key_delay := kd, between_users_delay := bd,
              assign_access_offset := (ax, ay), tab_2_click_rel := (tx, ty),
              netid_field_click_rel := (nx, ny), debug_actions := true }
  | _, _, _ => .error "Delays must be numbers (e.g. 1.0, 0.25)."

/-! ### Cancellable sleep (`_sleep_or_abort`)

Time is discretised to milliseconds.  `abortAt = some a` means the
cancellation flag becomes (and stays) set at time `a` counted from the
start of the sleep; `none` means it is never set during the sleep.  The
loop polls the flag, then sleeps `min(0.05, end_time - now)`, exactly as
the source does; the result is `some t` when the loop raises
`AbortRequested` at poll time `t`, and `none` when the full delay
elapses without a raise. -/

/-- Is the cancellation flag set at time `t`? -/
def flagAt (abortAt : Option Nat) (t : Nat) : Bool :=
  match abortAt with
  | some a => decide (a ≤ t)
  | none => false

/-- The polling loop of `_sleep_or_abort`, from current time `t`. -/
def sleep_or_abort_loop (durationMs : Nat) (abortAt : Option Nat) (t : Nat) : Option Nat :=
  if _h : t < durationMs then
    if flagAt abortAt t then some t
    else sleep_or_abort_loop durationMs abortAt (t + min 50 (durationMs - t))
  else none
termination_by durationMs - t
decreasing_by omega

/-- `_sleep_or_abort(seconds, abort_event)` for a delay of `durationMs`
milliseconds: `some t` if it raises `AbortRequested` at time `t`, `none`
if it returns normally after the full delay. -/
def sleep_or_abort (durationMs : Nat) (abortAt : Option Nat) : Option Nat :=
  sleep_or_abort_loop durationMs abortAt 0

/-! ### Events

The observable actions of `run_assign_access` and its helpers, in
emission order.  Log lines keep the source's literal text except that
interpolated runtime numbers (window counts, screen coordinates, the
action counter prefix) are elided, since no claim concerns them. -/

/-- The two pause sites of the workflow: the subject-choice pause (OCR
reported multiple users) and the correction pause (validation popup). -/
inductive PauseKind
  | subjectChoice
  | correction
deriving DecidableEq, Repr

/-- One observable action of the automation worker. -/
inductive Event
  | logLine (s : String)
  | logAction (s : String)
  | winQuery
  | focusMain
  | focusWizard
  | click (coords : Int × Int) (label : String)
  | key (k : String)
  | write (s : String)
  | capture
  | sleepE (seconds : ℚ)
  | requestPause (k : PauseKind)
  | resumeObserved (k : PauseKind)
deriving DecidableEq, Repr

/-- The events emitted by the source's `press(keys)` once past its abort
check: one action-log line (when debug logging is on) and the key
injection. -/
def pressEv (cfg : Config) (keys : String) : List Event :=
  (if cfg.debug_actions then [Event.logAction ("KEY " ++ keys)] else []) ++ [Event.key keys]

/-- `"*" * 56`. -/
def stars56 : String :=
  String.mk (List.replicate 56 '*')

/-- The events emitted by the source's `click_main(coords, label)` once
past its abort check: the banner for the "Assign Access" click, one
action-log line (when debug logging is on; the interpolated screen
coordinates are elided), and the click injection. -/
def clickEv (cfg : Config) (coords : Int × Int) (label : String) : List Event :=
  (if label = "Assign Access" then
     [Event.logLine ("\n" ++ stars56 ++ "\n"),
      Event.logLine "********************  ASSIGN ACCESS CLICK  ********************\n",
      Event.logLine (stars56 ++ "\n")]
   else []) ++
  (if cfg.debug_actions then [Event.logAction ("CLICK " ++ label)] else []) ++
  [Event.click coords label]

/-! ### Input Injector operations and the Cancellation Context (C5)

`press` and `click_main` begin with `if abort_event.is_set(): raise
AbortRequested()`.  Text injection has no wrapper in the source: it is
the bare `keyboard.write(netid)` call at the NetID entry step, with no
cancellation check of its own. -/

/-- The cooperative abort signal (`AbortRequested`). -/
inductive AutoSignal
  | aborted
deriving DecidableEq, Repr

/-- The source's `press`: abort check first, then log + inject. -/
def press (abort_set : Bool) (cfg : Config) (keys : String) : Except AutoSignal (List Event) :=
  if abort_set then .error .aborted else .ok (pressEv cfg keys)

/-- The source's `click_main`: abort check first, then log + inject. -/
def click_main (abort_set : Bool) (cfg : Config) (coords : Int × Int) (label : String) :
    Except AutoSignal (List Event) :=
  if abort_set then .error .aborted else .ok (clickEv cfg coords label)

/-- The source's text injection: the bare `keyboard.write(netid)` call.
It performs no cancellation check. -/
def type_text (_abort_set : Bool) (netid : String) : Except AutoSignal (List Event) :=
  .ok [Event.write netid]

/-! ### Window Locator (`_connect_single_main_window`) — iteration model

The environment supplies the sequence of match counts the loop would
observe on successive `find_elements` calls, one per iteration, the list
length being the number of iterations the deadline allows.  Each
iteration is recorded with what it observed, whether it emitted the
waiting/state-change log line, and whether it injected the
acknowledgement Enter.  The second component is `true` when the loop
connected (observed exactly one match) and `false` when the deadline
expired first (`RuntimeError` timeout). -/

/-- One iteration of the disambiguation loop. -/
structure ConnIter where
  observed : Nat
  logged : Bool
  entered : Bool
deriving DecidableEq, Repr

/-- The loop of `_connect_single_main_window`, threading `last_count`.
On `count == 1` it returns immediately (before any logging or key
press); otherwise it logs exactly when the count changed, presses Enter
exactly when more than one window matched, and retries. -/
def connectIters : List Nat → Option Nat → List ConnIter × Bool
  | [], _ => ([], false)
  | c :: rest, last =>
    if c = 1 then ([⟨c, false, false⟩], true)
    else
      let t := connectIters rest (some c)
      (⟨c, decide (some c ≠ last), decide (1 < c)⟩ :: t.1, t.2)

/-- `_connect_single_main_window` run against a fixed sequence of
observed match counts (`last_count` starts as `None`). -/
def connect_single_main_window (counts : List Nat) : List ConnIter × Bool :=
  connectIters counts none

/-! ### Helper lemmas for the classifier claim -/

/-- The crop step followed by the constraint-box step equals one filter
by the combined window predicate. -/
lemma window_filter_eq (dets : List Detection) (L Y : Int) :
    (dets.filter (fun d => decide (L ≤ d.xMin))).filter
      (fun d => decide (Y < d.yMin) && decide (d.yMin ≤ Y + 100 + 5) &&
                decide (d.xMin ≤ L + 100))
    = dets.filter (windowPred L Y) := by
  rw [List.filter_filter]
  apply List.filter_congr
  intro d _
  rw [Bool.eq_iff_iff]
  simp only [windowPred, Bool.and_eq_true, decide_eq_true_eq]
  tauto

/-- Filtering out the detections left of the label first does not change
the window word count (the window predicate already excludes them). -/
lemma windowWordCount_crop (dets : List Detection) (L Y : Int) :
    windowWordCount (dets.filter (fun d => decide (L ≤ d.xMin))) L Y
      = windowWordCount dets L Y := by
  unfold windowWordCount
  rw [List.filter_filter]
  have hf : dets.filter (fun a => windowPred L Y a && decide (L ≤ a.xMin))
      = dets.filter (windowPred L Y) := by
    apply List.filter_congr
    intro d _
    rw [Bool.eq_iff_iff]
    simp only [windowPred, Bool.and_eq_true, decide_eq_true_eq]
    tauto
  rw [hf]

/-- C1: when a title is found and a label is found below it, the
classifier's status is multiple-users exactly when the total word count
of the detections inside the constraint window (top edge strictly below
the label's lower edge, at most 100+5 units below it, at most 100 units
right of the label's left edge, and not left of the label's left edge)
exceeds two, and single-user otherwise (zero, one, or two words);
moreover detections whose left edge is left of the label's left edge
never contribute to that count. -/
theorem classifier_window_word_count (dets : List Detection) (ty : Int) (lb : Detection)
    (hT : findTitleY dets = some ty) (hL : findLabel dets ty = some lb) :
    (evaluate_assignment_screen dets).1 =
      (if 2 < windowWordCount dets lb.xMin lb.yMax then OcrStatus.multiple_users
       else OcrStatus.single_user) ∧
    windowWordCount (dets.filter (fun d => decide (lb.xMin ≤ d.xMin))) lb.xMin lb.yMax
      = windowWordCount dets lb.xMin lb.yMax := by
  refine ⟨?_, windowWordCount_crop dets lb.xMin lb.yMax⟩
  simp only [evaluate_assignment_screen, hT, hL]
  rw [window_filter_eq]
  unfold windowWordCount
  cases h : dets.filter (windowPred lb.xMin lb.yMax) with
  | nil => simp
  | cons a l => simp

/-- Concrete sample screen: a wizard title, a "Last Name" label below
it, and one three-word result row inside the constraint window. -/
def sampleTitle : Detection := ⟨10, 0, 300, 20, "Access Level Assignment Wizard", 1⟩

/-- The label detection of the sample screen. -/
def sampleLabel : Detection := ⟨50, 40, 120, 55, "Last Name", 1⟩

/-- The in-window result row of the sample screen (three words). -/
def sampleRow : Detection := ⟨52, 60, 200, 75, "Smith John Alice", 1⟩

/-- The sample screen's detection list. -/
def sampleDets : List Detection := [sampleTitle, sampleLabel, sampleRow]

/-- Witness for C1 at the sample screen (title at lower edge 20, label
found, three words in the window, hence multiple-users). -/
theorem classifier_window_word_count_witness :
    (evaluate_assignment_screen sampleDets).1 =
      (if 2 < windowWordCount sampleDets sampleLabel.xMin sampleLabel.yMax
       then OcrStatus.multiple_users else OcrStatus.single_user) ∧
    windowWordCount (sampleDets.filter (fun d => decide (sampleLabel.xMin ≤ d.xMin)))
        sampleLabel.xMin sampleLabel.yMax
      = windowWordCount sampleDets sampleLabel.xMin sampleLabel.yMax :=
  classifier_window_word_count sampleDets 20 sampleLabel (by decide) (by decide)

/-! ### C5: cancellation checks of the Input Injector operations -/

/-- C5 counterexample: with the cancellation flag set, the text
injection still injects its text and does not fail with Aborted — the
bare `keyboard.write(netid)` call has no cancellation check, so the
claim that every injector operation first checks the Cancellation
Context is false for `typeText`. -/
theorem type_text_ignores_abort_flag :
    type_text true "alice1" = Except.ok [Event.write "alice1"] ∧
    type_text true "alice1" ≠ Except.error AutoSignal.aborted := by
  exact ⟨rfl, by simp [type_text]⟩

/-- C5 amended: `press` and `click_main` first check the Cancellation
Context and fail with Aborted, injecting nothing, whenever the flag is
set at the time of the call; the text injection (`keyboard.write`)
performs no such check and injects its text regardless of the flag. -/
theorem injector_cancellation_checks (b : Bool) (cfg : Config) (keys : String)
    (coords : Int × Int) (label s : String) :
    (b = true → press b cfg keys = .error .aborted ∧
                click_main b cfg coords label = .error .aborted) ∧
    (b = false → press b cfg keys = .ok (pressEv cfg keys) ∧
                 click_main b cfg coords label = .ok (clickEv cfg coords label)) ∧
    type_text b s = .ok [Event.write s] := by
  refine ⟨?_, ?_, rfl⟩ <;> rintro rfl <;> exact ⟨rfl, rfl⟩

/-- Witness for the amended C5 at the flag-set case. -/
theorem injector_cancellation_checks_witness :
    press true default_config "enter" = Except.error AutoSignal.aborted ∧
    click_main true default_config (465, 59) "Assign Access" = Except.error AutoSignal.aborted :=
  (injector_cancellation_checks true default_config "enter" (465, 59) "Assign Access" "x").1 rfl

/-! ### C6: latency of the cancellable sleep -/

/-- Core latency lemma for the polling loop: starting at a poll-aligned
time not past the flag time, the loop either raises at a poll within one
tick (50 ms) of the flag being set, or — when the flag lands inside the
final partial tick — runs off the end of the delay, which is itself
within one tick of the flag time. -/
lemma sleep_or_abort_loop_latency (d a : Nat) :
    ∀ n t, d - t ≤ n → t % 50 = 0 → t ≤ a → a < d →
      (∃ u, sleep_or_abort_loop d (some a) t = some u ∧ a ≤ u ∧ u ≤ a + 50) ∨
      (sleep_or_abort_loop d (some a) t = none ∧ d ≤ a + 50) := by
  intro n
  induction n with
  | zero => intro t h1 _ h3 h4; omega
  | succ n ih =>
    intro t hn ht hta had
    have htd : t < d := lt_of_le_of_lt hta had
    rw [sleep_or_abort_loop, dif_pos htd]
    by_cases hf : flagAt (some a) t = true
    · have hat : a ≤ t := by simpa [flagAt] using hf
      rw [if_pos hf]
      exact Or.inl ⟨t, rfl, hat, by omega⟩
    · rw [if_neg hf]
      have hta' : t < a := by
        simp only [flagAt, decide_eq_true_eq] at hf
        omega
      by_cases h2 : t + min 50 (d - t) ≤ a
      · have hmin : min 50 (d - t) = 50 := by omega
        exact ih (t + min 50 (d - t)) (by omega) (by omega) h2 had
      · push_neg at h2
        by_cases h3 : t + min 50 (d - t) < d
        · rw [sleep_or_abort_loop, dif_pos h3]
          have hfl : flagAt (some a) (t + min 50 (d - t)) = true := by
            simp only [flagAt, decide_eq_true_eq]
            omega
          rw [if_pos hfl]
          exact Or.inl ⟨t + min 50 (d - t), rfl, by omega, by omega⟩
        · rw [sleep_or_abort_loop, dif_neg (by omega)]
          exact Or.inr ⟨rfl, by omega⟩

/-- C6 counterexample: for a 70 ms delay with the flag set at 60 ms
(inside the final partial tick), `_sleep_or_abort` never raises Aborted
at all — it returns normally when the delay ends — so the claim that it
raises Aborted within one polling tick of the flag being set is false. -/
theorem sleep_or_abort_no_raise_in_final_tick :
    (60 < 70 ∧ sleep_or_abort 70 (some 60) = none) ∧
    ∀ u, sleep_or_abort 70 (some 60) ≠ some u := by
  have h : sleep_or_abort 70 (some 60) = none := by
    rw [sleep_or_abort]
    rw [sleep_or_abort_loop]; norm_num [flagAt]
    rw [sleep_or_abort_loop]; norm_num [flagAt]
    rw [sleep_or_abort_loop]; norm_num
  exact ⟨⟨by norm_num, h⟩, fun u hu => by rw [h] at hu; cases hu⟩

/-- C6 amended: if the cancellation flag is set at time `a` during a
delay of `d` ms, the cancellable sleep terminates within one polling
tick (50 ms) of the flag being set — raising Aborted at a poll time in
`[a, a+50]` whenever a poll occurs before the delay's end, and otherwise
(flag set inside the final partial tick) returning normally at the
delay's end, which is at most `a + 50`. -/
theorem sleep_or_abort_latency (d a : Nat) (h : a < d) :
    (∃ u, sleep_or_abort d (some a) = some u ∧ a ≤ u ∧ u ≤ a + 50) ∨
    (sleep_or_abort d (some a) = none ∧ d ≤ a + 50) :=
  sleep_or_abort_loop_latency d a d 0 (by omega) (by omega) (by omega) h

/-- Witness for the amended C6: a 200 ms delay with the flag set at
60 ms. -/
theorem sleep_or_abort_latency_witness :
    (∃ u, sleep_or_abort 200 (some 60) = some u ∧ 60 ≤ u ∧ u ≤ 60 + 50) ∨
    (sleep_or_abort 200 (some 60) = none ∧ 200 ≤ 60 + 50) :=
  sleep_or_abort_latency 200 60 (by norm_num)

/-! ### C10: the debug-logging flag through the external interfaces -/

/-- C10: every Configuration produced through the external interfaces
has debug logging forced on — deserialisation and the settings form
both set `debug_actions` to true unconditionally, and serialisation
never writes the flag. -/
theorem debug_actions_forced_on :
    (∀ d, (dict_to_config d).debug_actions = true) ∧
    (∀ cs ks bs ax ay tx ty nx ny c,
        read_config_from_advanced cs ks bs ax ay tx ty nx ny = Except.ok c →
        c.debug_actions = true) ∧
    (∀ cfg, ∀ p ∈ config_to_dict cfg, p.1 ≠ "debug_actions") := by
  refine ⟨fun d => rfl, ?_, ?_⟩
  · intro cs ks bs ax ay tx ty nx ny c h
    unfold read_config_from_advanced at h
    repeat' split at h
    all_goals (try cases h)
    all_goals rfl
  · intro cfg p hp
    simp only [config_to_dict, List.mem_cons, List.not_mem_nil, or_false] at hp
    rcases hp with rfl | rfl | rfl | rfl | rfl | rfl
    all_goals simp

/-- Witness for C10: the settings form with all defaults parses to a
configuration, and its debug flag is true. -/
theorem debug_actions_forced_on_witness :
    ∃ c, read_config_from_advanced (some 1) (some 1) (some 1)
          "465" "59" "650" "300" "1080" "444" = Except.ok c ∧
         c.debug_actions = true := by
  refine ⟨_, rfl, ?_⟩
  exact debug_actions_forced_on.2.1 (some 1) (some 1) (some 1)
    "465" "59" "650" "300" "1080" "444" _ rfl

/-! ### Helper lemmas for the Window Locator claims -/

/-- The iterations observe a prefix of the supplied count sequence. -/
lemma connectIters_observed_pref (counts : List Nat) (last : Option Nat) :
    ∃ rest, counts = ((connectIters counts last).1.map (fun it => it.observed)) ++ rest := by
  induction counts generalizing last with
  | nil => exact ⟨[], rfl⟩
  | cons c cs ih =>
    by_cases hc : c = 1
    · subst hc
      exact ⟨cs, by simp [connectIters]⟩
    · obtain ⟨rest, hr⟩ := ih (some c)
      refine ⟨rest, ?_⟩
      simpa [connectIters, hc] using hr

/-- The loop connects exactly when some iteration observes exactly one
match; otherwise the deadline expires and it fails with the timeout
error. -/
lemma connectIters_ok_iff (counts : List Nat) (last : Option Nat) :
    (connectIters counts last).2 = true ↔ 1 ∈ counts := by
  induction counts generalizing last with
  | nil => simp [connectIters]
  | cons c cs ih =>
    by_cases hc : c = 1
    · subst hc; simp [connectIters]
    · rw [List.mem_cons]
      simp only [connectIters, hc, if_false, ih (some c)]
      constructor
      · exact Or.inr
      · rintro (h | h)
        · exact absurd h.symm hc
        · exact h

/-- Each iteration injects the acknowledgement Enter exactly when it
observed more than one match. -/
lemma connectIters_entered_iff (counts : List Nat) (last : Option Nat) :
    ∀ it ∈ (connectIters counts last).1, it.entered = decide (1 < it.observed) := by
  induction counts generalizing last with
  | nil => simp [connectIters]
  | cons c cs ih =>
    intro it hit
    by_cases hc : c = 1
    · subst hc
      simp only [connectIters, if_true] at hit
      simp only [List.mem_singleton] at hit
      subst hit
      rfl
    · simp only [connectIters, hc, if_false, List.mem_cons] at hit
      rcases hit with rfl | hit
      · rfl
      · exact ih (some c) it hit

/-- When the loop connects, the connection happens at the final recorded
iteration, which observed exactly one match; all earlier iterations
observed a count different from one. -/
lemma connectIters_shape_connected (counts : List Nat) (last : Option Nat) :
    (connectIters counts last).2 = true →
    ∃ pre itl, (connectIters counts last).1 = pre ++ [itl] ∧ itl.observed = 1 ∧
      ∀ it ∈ pre, it.observed ≠ 1 := by
  induction counts generalizing last with
  | nil => simp [connectIters]
  | cons c cs ih =>
    intro h
    by_cases hc : c = 1
    · subst hc
      refine ⟨[], ⟨1, false, false⟩, ?_, rfl, ?_⟩
      · simp [connectIters]
      · simp
    · have h' : (connectIters cs (some c)).2 = true := by
        simpa [connectIters, hc] using h
      obtain ⟨pre, itl, he, ho, hp⟩ := ih (some c) h'
      refine ⟨⟨c, decide (some c ≠ last), decide (1 < c)⟩ :: pre, itl, ?_, ho, ?_⟩
      · simp [connectIters, hc, he]
      · intro it hit
        rw [List.mem_cons] at hit
        rcases hit with rfl | hit
        · exact hc
        · exact hp it hit

/-- The first recorded iteration logs only if its observed count differs
from the incoming `last_count`; on an equal count it is silent.  (A
connecting iteration returns before logging, so it is always silent.) -/
lemma connectIters_head_cases (counts : List Nat) (last : Option Nat) :
    ∀ it, (connectIters counts last).1.head? = some it →
      (it.logged = true → some it.observed ≠ last) ∧
      (some it.observed = last → it.logged = false) := by
  cases counts with
  | nil => intro it h; simp [connectIters] at h
  | cons c cs =>
    intro it h
    by_cases hc : c = 1
    · subst hc
      simp only [connectIters, if_true, List.head?_cons, Option.some.injEq] at h
      subst h
      constructor
      · intro hl
        cases hl
      · intro _
        rfl
    · simp only [connectIters, hc, if_false, List.head?_cons, Option.some.injEq] at h
      subst h
      constructor
      · intro hl
        exact of_decide_eq_true hl
      · intro he
        simp [he]

/-- Consecutive iterations: a waiting/state-change log line is emitted
only when the observed count changed from the previous iteration's. -/
lemma connectIters_logged_pairs (counts : List Nat) (last : Option Nat) :
    ∀ k itp it, (connectIters counts last).1[k]? = some itp →
      (connectIters counts last).1[k + 1]? = some it →
      (it.logged = true → it.observed ≠ itp.observed) ∧
      (it.observed = itp.observed → it.logged = false) := by
  induction counts generalizing last with
  | nil => intro k itp it h; simp [connectIters] at h
  | cons c cs ih =>
    intro k itp it h1 h2
    by_cases hc : c = 1
    · subst hc
      simp only [connectIters, if_true] at h1 h2
      rcases k with _ | k
      · simp at h2
      · simp at h1
    · simp only [connectIters, hc, if_false] at h1 h2
      rcases k with _ | k
      · simp only [List.getElem?_cons_zero, Option.some.injEq] at h1
        simp only [List.getElem?_cons_succ] at h2
        subst h1
        have hhead : (connectIters cs (some c)).1.head? = some it := by
          rw [List.head?_eq_getElem?]
          exact h2
        obtain ⟨hA, hB⟩ := connectIters_head_cases cs (some c) it hhead
        constructor
        · intro hl hob
          exact hA hl (by rw [hob])
        · intro hob
          exact hB (by rw [hob])
      · simp only [List.getElem?_cons_succ] at h1 h2
        exact ih (some c) k itp it h1 h2

/-! ### C2: the disambiguation loop's contract -/

/-- C2: for every sequence of observed match counts, the locator's
iterations observe a prefix of that sequence; it connects (returns a
window reference) exactly when some iteration observes exactly one
match, and then only at the final iteration, which observed exactly one
match while all earlier iterations did not; it injects the
acknowledgement Enter exactly in the iterations whose observed count
exceeds one; and it fails with the timeout error exactly when no
iteration within the deadline observes exactly one match. -/
theorem resolve_single_window_spec (counts : List Nat) :
    (∃ rest, counts
        = ((connect_single_main_window counts).1.map (fun it => it.observed)) ++ rest) ∧
    ((connect_single_main_window counts).2 = true ↔ 1 ∈ counts) ∧
    (∀ it ∈ (connect_single_main_window counts).1,
        it.entered = decide (1 < it.observed)) ∧
    ((connect_single_main_window counts).2 = true →
      ∃ pre itl, (connect_single_main_window counts).1 = pre ++ [itl] ∧
        itl.observed = 1 ∧ ∀ it ∈ pre, it.observed ≠ 1) :=
  ⟨connectIters_observed_pref counts none, connectIters_ok_iff counts none,
   connectIters_entered_iff counts none, connectIters_shape_connected counts none⟩

/-- Witness for C2: the 2→2→1 oscillation connects. -/
theorem resolve_single_window_spec_witness :
    (connect_single_main_window [2, 2, 1]).2 = true :=
  (resolve_single_window_spec [2, 2, 1]).2.1.mpr (by decide)

/-! ### C8: state-change logging and silent waiting -/

/-- C8: during disambiguation a waiting/state-change log line is
emitted only in iterations whose observed count differs from the
previously observed count (consecutive equal observations are silent),
and an iteration observing zero matches never injects a keystroke. -/
theorem locator_logs_only_on_change (counts : List Nat) :
    (∀ k itp it, (connect_single_main_window counts).1[k]? = some itp →
        (connect_single_main_window counts).1[k + 1]? = some it →
        (it.logged = true → it.observed ≠ itp.observed) ∧
        (it.observed = itp.observed → it.logged = false)) ∧
    (∀ it ∈ (connect_single_main_window counts).1, it.observed = 0 →
        it.entered = false) :=
  ⟨connectIters_logged_pairs counts none,
   fun it hit h0 => by
     have h := connectIters_entered_iff counts none it hit
     rw [h, h0]
     rfl⟩

/-- Witness for C8: with counts 0,0,1 the second zero-observing
iteration is silent. -/
theorem locator_logs_only_on_change_witness :
    (ConnIter.mk 0 false false).logged = false :=
  ((locator_logs_only_on_change [0, 0, 1]).1 0 ⟨0, true, false⟩ ⟨0, false, false⟩
    (by decide) (by decide)).2 rfl

/-! ### The orchestration run (`run_assign_access`) as a trace

The per-record loop is embedded as a function from an abstract
environment — the observations the worker would make (window match
counts, wizard-connect attempts, successive OCR outcomes, resume-button
timing, post-advance window counts) — to the list of events the worker
emits, in order, plus a completion flag.  The abort event is never set
in this model (cancellation of the individual operations is modelled
separately above); `_RESUME_HOOKS` is assumed installed, as the GUI does
before starting a run.  Interpolated runtime numbers in log text are
elided. -/

/-- The state-change log line of the connect loop when more than one
window matched (the `(found N)` count is elided). -/
def connectLogMulti : String :=
  "Waiting for a single 'Area Access Manager' window. Pressing Enter to clear popups...\n"

/-- The state-change log line of the connect loop when zero windows
matched (the `(found N)` count is elided). -/
def connectLogWait : String :=
  "Waiting for a single 'Area Access Manager' window...\n"

/-- The subject-choice pause banner (verbatim from the source). -/
def subjPausedMsg : String :=
  "\nPAUSED: More than one user detected.\nPlease select the correct user in Area Access Manager, press Enter there, then press Resume here.\n(No keys/clicks will be sent while paused.)\n\n"

/-- The correction pause banner (the observed window count in the Debug
line is elided). -/
def corrPausedMsg : String :=
  "\nPAUSED: NetID may be invalid (see pop-up on Area Access Manager).\nCorrect the NetID typo, \npress 'Next' in Area Access Manager to confirm typo is fixed, \nand then press 'Resume' Here.\n(Debug: observed Area Access Manager window(s).)\n(No keys/clicks will be sent while paused.)\n\n"

/-- The per-record connect call (`_connect_single_main_window`) as an
event list: each iteration queries the window list; on a single match it
connects; otherwise it logs on a count change, presses Enter (followed
by the key-delay sleep) when more than one window matched, sleeps the
0.1 s retry tick and goes round again.  `false` means the deadline
expired (timeout `RuntimeError`). -/
def connectPhase (cfg : Config) : List Nat → Option Nat → List Event × Bool
  | [], _ => ([], false)
  | c :: rest, last =>
    if c = 1 then ([Event.winQuery], true)
    else
      let t := connectPhase cfg rest (some c)
      (Event.winQuery ::
        ((if some c ≠ last then
            [Event.logLine (if 1 < c then connectLogMulti else connectLogWait)]
          else []) ++
         (if 1 < c then [Event.key "enter", Event.sleepE cfg.key_delay] else []) ++
         Event.sleepE 0.1 :: t.1), t.2)

/-- The wizard-window wait (15 attempts, 1 s apart): `failures` is the
number of connect attempts that raise before one succeeds; 15 or more
means the wizard never appears (`RuntimeError`). -/
def wizardPhase (failures : Nat) : List Event × Bool :=
  if failures < 15 then
    ((List.replicate failures [Event.winQuery, Event.sleepE 1]).flatten
      ++ [Event.winQuery, Event.logLine "Wizard window found\n"], true)
  else
    ((List.replicate 15 [Event.winQuery, Event.sleepE 1]).flatten, false)

/-- The subject-choice pause block: banner, pause request
(`resume_event.clear()` + `enable_resume()`), then the 0.1 s polls of
the resume flag.  `some n` means the host signals resume after `n`
polls, after which the worker re-focuses the wizard and sleeps 0.2 s;
`none` means resume is never signalled and the worker stays blocked. -/
def subjectPause (resume : Option Nat) : List Event × Bool :=
  match resume with
  | none => ([Event.logLine subjPausedMsg, Event.requestPause .subjectChoice], false)
  | some n =>
    ([Event.logLine subjPausedMsg, Event.requestPause .subjectChoice] ++
      List.replicate n (Event.sleepE 0.1) ++
      [Event.resumeObserved .subjectChoice, Event.focusWizard, Event.sleepE 0.2], true)

/-- The imaging/analysis loop after the first Enter: each iteration
logs its phase, sleeps `click_delay * 10`, captures the top half of the
screen and classifies it; indeterminate statuses (`title_missing`,
`label_missing`) loop again, `multiple_users` enters the subject-choice
pause, and `single_user` / `ocr_failed` (an exception during
capture/OCR, which logs a warning) proceed.  Returns the events, the
decisive status reached (if the supplied outcome list suffices), and
whether the loop completed (false while blocked in the pause or with
the outcome list exhausted). -/
def ocrLoop (cfg : Config) (subjectResume : Option Nat) :
    List OcrStatus → OcrStatus → Bool → List Event × Option OcrStatus × Bool
  | [], _, _ => ([], none, false)
  | r :: rest, prev, first =>
    let pre : List Event :=
      [Event.logLine (if prev = OcrStatus.title_missing then
          (if first then "Imaging\n" else "Re-imaging\n")
        else "Analyzing\n"),
       Event.sleepE (cfg.click_delay * 10), Event.capture]
    match r with
    | .title_missing =>
      let t := ocrLoop cfg subjectResume rest .title_missing false
      (pre ++ t.1, t.2)
    | .label_missing =>
      let t := ocrLoop cfg subjectResume rest .label_missing false
      (pre ++ t.1, t.2)
    | .multiple_users =>
      let p := subjectPause subjectResume
      (pre ++ p.1, some .multiple_users, p.2)
    | .ocr_failed => (pre ++ [Event.logLine "[OCR] Warning\n"], some .ocr_failed, true)
    | .single_user => (pre, some .single_user, true)

/-- The polling loop of `popup_detected_after_enter`: window counts are
polled at 0.05 s ticks within the observation window; the first count
above the baseline of two returns true immediately. -/
def popupAux : List Nat → List Event × Bool
  | [] => ([], false)
  | c :: rest =>
    if 2 < c then ([Event.winQuery], true)
    else
      let t := popupAux rest
      (Event.winQuery :: Event.sleepE 0.05 :: t.1, t.2)

/-- `popup_detected_after_enter`: the polling loop plus the debug
summary action-log line emitted when no popup was detected and at least
one poll happened (the numeric last/max counts are elided). -/
def popup_detected_after_enter (cfg : Config) (counts : List Nat) : List Event × Bool :=
  let t := popupAux counts
  if t.2 then (t.1, true)
  else
    (t.1 ++ (if cfg.debug_actions && !counts.isEmpty then
               [Event.logAction "AAM windows after Enter"] else []), false)

/-- One round of the correction-pause loop, as observed by the worker:
whether (and after how many 0.1 s polls) the host presses Resume, how
many 0.1 s window-count polls the 15 s wait makes before its last
check, and whether that last check sees the count back at exactly
two. -/
structure CorrRound where
  resumePolls : Option Nat
  innerPolls : Nat
  backToTwo : Bool
deriving DecidableEq, Repr

/-- The correction-pause loop (`while True:` at the validation step):
each round queries the count, logs the banner, requests a pause, blocks
until resume, then waits for the window count to return to exactly two;
if it has not, the loop re-enters the pause.  `false` means the worker
never proceeds (blocked in a pause, or the supplied rounds are
exhausted — the real loop would pause again). -/
def corrLoop : List CorrRound → List Event × Bool
  | [] => ([], false)
  | r :: rest =>
    let pauseEs : List Event :=
      [Event.winQuery, Event.logLine corrPausedMsg, Event.requestPause .correction]
    match r.resumePolls with
    | none => (pauseEs, false)
    | some n =>
      let es := pauseEs ++ List.replicate n (Event.sleepE 0.1) ++
        [Event.resumeObserved .correction] ++
        (List.replicate r.innerPolls [Event.winQuery, Event.sleepE 0.1]).flatten ++
        [Event.winQuery]
      if r.backToTwo then (es ++ [Event.focusWizard, Event.sleepE 0.2], true)
      else
        let t := corrLoop rest
        (es ++ t.1, t.2)

/-- The fixed key sequence after validation (identical for both
branches; only the single-user branch sleeps after the final Enter). -/
def keySeq (cfg : Config) (trailing : Bool) : List Event :=
  [Event.logLine "Tab\n"] ++ pressEv cfg "tab" ++ [Event.sleepE cfg.key_delay] ++
  [Event.logLine "Enter\n"] ++ pressEv cfg "enter" ++ [Event.sleepE cfg.key_delay] ++
  [Event.logLine "Enter (popup)\n"] ++ pressEv cfg "enter" ++ [Event.sleepE cfg.key_delay] ++
  [Event.logLine "Tab x4 + Enter\n"] ++
  (List.replicate 4 (pressEv cfg "tab" ++ [Event.sleepE cfg.key_delay])).flatten ++
  pressEv cfg "enter" ++ [Event.sleepE cfg.key_delay] ++
  [Event.logLine "Enter\n"] ++ pressEv cfg "enter" ++ [Event.sleepE cfg.key_delay] ++
  [Event.logLine "Enter\n"] ++ pressEv cfg "enter" ++ [Event.sleepE cfg.key_delay] ++
  [Event.logLine "Waiting (key_delay * 10)\n", Event.sleepE (cfg.key_delay * 10)] ++
  [Event.logLine "Enter\n"] ++ pressEv cfg "enter" ++
  (if trailing then [Event.sleepE cfg.key_delay] else [])

/-- The abstract environment for one record: what the worker observes
at each of its decision points. -/
structure RecordEnv where
  connectCounts : List Nat
  wizardFailures : Nat
  ocrResults : List OcrStatus
  subjectResume : Option Nat
  popupCounts : List Nat
  corrRounds : List CorrRound

/-- One iteration of the per-record loop of `run_assign_access` (from
the per-record `_connect_single_main_window` call to the `Completed`
log line), as an event list plus a completion flag (`false`: timed
out, blocked in a pause, or the environment data ran out). -/
def processRecord (cfg : Config) (netid : String) (env : RecordEnv) : List Event × Bool :=
  let c := connectPhase cfg env.connectCounts none
  if !c.2 then (c.1, false)
  else
    let pre1 := c.1 ++
      [Event.logLine ("Processing " ++ netid ++ "\n"), Event.focusMain, Event.sleepE 0.2] ++
      clickEv cfg cfg.assign_access_offset "Assign Access" ++ [Event.sleepE cfg.click_delay] ++
      [Event.logLine "Waiting for wizard window...\n"]
    let w := wizardPhase env.wizardFailures
    if !w.2 then (pre1 ++ w.1, false)
    else
      let pre2 := pre1 ++ w.1 ++
        [Event.logLine "Clicking UWID tab\n"] ++
        clickEv cfg cfg.tab_2_click_rel "UWID tab" ++ [Event.sleepE cfg.click_delay] ++
        [Event.logLine ("Clicking NetID field and entering " ++ netid ++ "\n")] ++
        clickEv cfg cfg.netid_field_click_rel "NetID field" ++ [Event.sleepE cfg.click_delay] ++
        [Event.write netid, Event.sleepE cfg.key_delay] ++
        [Event.logLine "Next (Step 1/4 -> 2/4) via Enter\n", Event.focusWizard] ++
        pressEv cfg "enter"
      let o := ocrLoop cfg env.subjectResume env.ocrResults .title_missing true
      match o.2.1, o.2.2 with
      | some st, true =>
        let pre3 := pre2 ++ o.1 ++ [Event.focusWizard, Event.sleepE 0.1] ++
          (if st ≠ OcrStatus.multiple_users then
             [Event.logLine "Enter\n"] ++ pressEv cfg "enter"
           else []) ++
          [Event.sleepE cfg.key_delay]
        let p := popup_detected_after_enter cfg env.popupCounts
        let pre4 := pre3 ++ p.1
        if p.2 then
          let cr := corrLoop env.corrRounds
          if cr.2 then
            (pre4 ++ cr.1 ++ keySeq cfg (decide (st = OcrStatus.single_user)) ++
              [Event.logLine ("Completed " ++ netid ++ "\n\n")], true)
          else (pre4 ++ cr.1, false)
        else
          (pre4 ++ keySeq cfg (decide (st = OcrStatus.single_user)) ++
            [Event.logLine ("Completed " ++ netid ++ "\n\n")], true)
      | _, _ => (pre2 ++ o.1, false)

/-- The records loop: records are processed in order; a record that
fails (timeout / blocked) ends the run with the processed count so
far.  Returns events, normal-completion flag, and the count of records
completed within the returned suffix. -/
def runRecords (cfg : Config) (recEnv : Nat → RecordEnv) :
    List String → Nat → List Event × Bool × Nat
  | [], _ => ([], true, 0)
  | n :: rest, i =>
    let r := processRecord cfg n (recEnv i)
    if r.2 then
      let t := runRecords cfg recEnv rest (i + 1)
      (r.1 ++ t.1, t.2.1, t.2.2 + 1)
    else (r.1, false, 0)

/-- The abstract environment of a whole run. -/
structure RunEnv where
  initConnectCounts : List Nat
  records : Nat → RecordEnv

/-- `run_assign_access(netids, cfg, abort_event, log)`: the empty-list
guard, the initial connect, the per-record loop, and the closing
summary log lines (the `Connected:` window title and the elapsed-time
number are elided).  Returns the events, whether the run completed
normally, and the processed-records count. -/
def run_assign_access (netids : List String) (cfg : Config) (env : RunEnv) :
    List Event × Bool × Nat :=
  if netids.isEmpty then ([Event.logLine "No NetIDs provided.\n"], true, 0)
  else
    let c := connectPhase cfg env.initConnectCounts none
    let head := [Event.logLine "Connecting to application...\n",
                 Event.logLine "(Press ABORT anytime to stop)\n\n"] ++ c.1
    if !c.2 then (head, false, 0)
    else
      let r := runRecords cfg env.records netids 0
      if r.2.1 then
        (head ++ [Event.logLine "Connected\n"] ++ r.1 ++
          [Event.logLine "All users processed.\n",
           Event.logLine ("Total users processed: " ++ toString r.2.2 ++ "\n"),
           Event.logLine "Total processing time\n"], true, r.2.2)
      else (head ++ [Event.logLine "Connected\n"] ++ r.1, false, r.2.2)

/-! ### Trace observables -/

/-- Input-injection events (click, key press, text write). -/
def isInjection : Event → Bool
  | .click _ _ => true
  | .key _ => true
  | .write _ => true
  | _ => false

/-- Pause-protocol events. -/
def isPauseCtl : Event → Bool
  | .requestPause _ => true
  | .resumeObserved _ => true
  | _ => false

/-- Log events (either channel). -/
def isLogEvent : Event → Bool
  | .logLine _ => true
  | .logAction _ => true
  | _ => false

/-- Window, input, and capture operations (everything but logging and
sleeping). -/
def isOperationEvent : Event → Bool
  | .winQuery => true
  | .click _ _ => true
  | .key _ => true
  | .write _ => true
  | .capture => true
  | .focusMain => true
  | .focusWizard => true
  | _ => false

/-- The paused/not-paused state after a trace segment, starting from
`p`: a pause request sets it, an observed resume clears it. -/
def pauseStateAfter : List Event → Bool → Bool
  | [], p => p
  | e :: rest, p =>
    match e with
    | .requestPause _ => pauseStateAfter rest true
    | .resumeObserved _ => pauseStateAfter rest false
    | _ => pauseStateAfter rest p

/-- Scan a trace with the paused flag: `true` iff no injection event
occurs while the flag is set. -/
def cleanWhilePaused : List Event → Bool → Bool
  | [], _ => true
  | e :: rest, p =>
    match e with
    | .requestPause _ => cleanWhilePaused rest true
    | .resumeObserved _ => cleanWhilePaused rest false
    | _ => (!(p && isInjection e)) && cleanWhilePaused rest p

/-- No injection event occurs between any pause request and the
following observed resume. -/
def noInjectionWhilePaused (t : List Event) : Bool :=
  cleanWhilePaused t false

/-- The injected key presses of a trace, in order. -/
def keysOf (t : List Event) : List String :=
  t.filterMap (fun e => match e with | .key k => some k | _ => none)

/-- How many correction pauses a trace requests. -/
def countCorrPauses (t : List Event) : Nat :=
  t.countP (fun e => e == Event.requestPause .correction)

/-- A segment with no pause-protocol events. -/
def plainSeg (t : List Event) : Bool :=
  t.all (fun e => !isPauseCtl e)

/-- The first decisive status in a sequence of classification
outcomes (what the imaging loop settles on). -/
def decisiveOf : List OcrStatus → Option OcrStatus
  | [] => none
  | r :: rest =>
    if r = OcrStatus.title_missing ∨ r = OcrStatus.label_missing then decisiveOf rest
    else some r

/-- The acknowledgement Enters the connect loop injects for an observed
count sequence. -/
def connectKeys : List Nat → List String
  | [] => []
  | c :: rest =>
    if c = 1 then [] else (if 1 < c then ["enter"] else []) ++ connectKeys rest

/-- The key names of the fixed post-validation sequence. -/
def seqKeys : List String :=
  ["tab", "enter", "enter", "tab", "tab", "tab", "tab", "enter", "enter", "enter", "enter"]

/-- Whether the correction-pause loop eventually proceeds within the
supplied rounds. -/
def corrResolved : List CorrRound → Bool
  | [] => false
  | r :: rest =>
    match r.resumePolls with
    | none => false
    | some _ => if r.backToTwo then true else corrResolved rest

/-- How many correction pauses the loop requests for the supplied
rounds. -/
def corrPausesUsed : List CorrRound → Nat
  | [] => 0
  | r :: rest =>
    match r.resumePolls with
    | none => 1
    | some _ => if r.backToTwo then 1 else 1 + corrPausesUsed rest

/-! ### Trace decomposition lemmas -/

/-- The paused state threads through concatenation. -/
lemma pauseStateAfter_append (a b : List Event) (p : Bool) :
    pauseStateAfter (a ++ b) p = pauseStateAfter b (pauseStateAfter a p) := by
  induction a generalizing p with
  | nil => rfl
  | cons e a ih => cases e <;> simp [pauseStateAfter, ih]

/-- The pause-cleanliness scan splits over concatenation. -/
lemma cleanWhilePaused_append (a b : List Event) (p : Bool) :
    cleanWhilePaused (a ++ b) p
      = (cleanWhilePaused a p && cleanWhilePaused b (pauseStateAfter a p)) := by
  induction a generalizing p with
  | nil => rfl
  | cons e a ih => cases e <;> simp [cleanWhilePaused, pauseStateAfter, ih, Bool.and_assoc]

/-- A pause-free segment entered unpaused is clean and leaves the state
unpaused. -/
lemma plain_clean (t : List Event) (h : plainSeg t = true) :
    cleanWhilePaused t false = true ∧ pauseStateAfter t false = false := by
  induction t with
  | nil => exact ⟨rfl, rfl⟩
  | cons e rest ih =>
    simp only [plainSeg, List.all_cons, Bool.and_eq_true] at h
    obtain ⟨h1, h2⟩ := h
    have ih' := ih h2
    cases e <;> simp_all [cleanWhilePaused, pauseStateAfter, isPauseCtl]

/-- `plainSeg` distributes over concatenation. -/
lemma plainSeg_append (a b : List Event) :
    plainSeg (a ++ b) = (plainSeg a && plainSeg b) := by
  simp [plainSeg, List.all_append]

/-- Unfolding `plainSeg` one event at a time. -/
lemma plainSeg_cons (e : Event) (t : List Event) :
    plainSeg (e :: t) = (!isPauseCtl e && plainSeg t) := rfl

/-- Plain on the empty segment. -/
lemma plainSeg_nil : plainSeg [] = true := rfl

/-- A replicated non-pause event is a plain segment. -/
lemma plainSeg_replicate (n : Nat) (e : Event) (h : isPauseCtl e = false) :
    plainSeg (List.replicate n e) = true := by
  induction n with
  | zero => rfl
  | succ n ih => rw [List.replicate_succ, plainSeg_cons, h, ih]; rfl

/-- A flattened replication of a plain segment is plain. -/
lemma plainSeg_flatten_replicate (n : Nat) (l : List Event) (h : plainSeg l = true) :
    plainSeg (List.replicate n l).flatten = true := by
  induction n with
  | zero => rfl
  | succ n ih => simp [List.replicate_succ, plainSeg_append, h, ih]

/-- `press` emits no pause events. -/
lemma plainSeg_pressEv (cfg : Config) (k : String) : plainSeg (pressEv cfg k) = true := by
  rcases cfg with ⟨cd, kd, bd, o1, o2, o3, dbg⟩
  cases dbg <;> rfl

/-- `click_main` emits no pause events. -/
lemma plainSeg_clickEv (cfg : Config) (coords : Int × Int) (label : String) :
    plainSeg (clickEv cfg coords label) = true := by
  rcases cfg with ⟨cd, kd, bd, o1, o2, o3, dbg⟩
  by_cases hl : label = "Assign Access" <;>
    cases dbg <;> simp [clickEv, hl, plainSeg, isPauseCtl]

/-- The fixed key sequence emits no pause events. -/
lemma plainSeg_keySeq (cfg : Config) (b : Bool) : plainSeg (keySeq cfg b) = true := by
  have h4 : plainSeg (pressEv cfg "tab" ++ [Event.sleepE cfg.key_delay]) = true := by
    rw [plainSeg_append, plainSeg_pressEv]
    rfl
  unfold keySeq
  cases b <;>
    simp [plainSeg_append, plainSeg_pressEv, plainSeg_flatten_replicate _ _ h4,
          plainSeg_cons, plainSeg_nil, isPauseCtl]

/-- The connect loop emits no pause events. -/
lemma plainSeg_connectPhase (cfg : Config) :
    ∀ (counts : List Nat) (last : Option Nat),
      plainSeg (connectPhase cfg counts last).1 = true := by
  intro counts
  induction counts with
  | nil => intro last; rfl
  | cons c rest ih =>
    intro last
    by_cases hc : c = 1
    · subst hc; rfl
    · by_cases hl : some c ≠ last <;> by_cases h2 : 1 < c <;>
        simp [connectPhase, hc, hl, h2, plainSeg_cons, plainSeg_append, isPauseCtl,
              ih (some c)]

/-- The wizard wait emits no pause events. -/
lemma plainSeg_wizardPhase (f : Nat) : plainSeg (wizardPhase f).1 = true := by
  have h1 : plainSeg [Event.winQuery, Event.sleepE 1] = true := rfl
  by_cases hf : f < 15 <;>
    simp [wizardPhase, hf, plainSeg_append, plainSeg_flatten_replicate _ _ h1,
          plainSeg_cons, plainSeg_nil, isPauseCtl]

/-- The popup-poll loop emits no pause events. -/
lemma plainSeg_popupAux (counts : List Nat) : plainSeg (popupAux counts).1 = true := by
  induction counts with
  | nil => rfl
  | cons c rest ih =>
    by_cases hc : 2 < c <;>
      simp [popupAux, hc, plainSeg_cons, plainSeg_nil, isPauseCtl, ih]

/-- Popup detection emits no pause events. -/
lemma plainSeg_popup (cfg : Config) (counts : List Nat) :
    plainSeg (popup_detected_after_enter cfg counts).1 = true := by
  simp only [popup_detected_after_enter]
  by_cases hp : (popupAux counts).2 = true
  · simp [hp, plainSeg_popupAux counts]
  · simp only [hp, if_false, Bool.false_eq_true]
    rw [plainSeg_append, plainSeg_popupAux counts]
    split <;> rfl

/-! ### Pointwise scan lemmas (one per event constructor) -/

@[simp] lemma keysOf_nil : keysOf [] = [] := rfl

@[simp] lemma keysOf_logLine (s : String) (t : List Event) :
    keysOf (Event.logLine s :: t) = keysOf t := rfl

@[simp] lemma keysOf_logAction (s : String) (t : List Event) :
    keysOf (Event.logAction s :: t) = keysOf t := rfl

@[simp] lemma keysOf_winQuery (t : List Event) :
    keysOf (Event.winQuery :: t) = keysOf t := rfl

@[simp] lemma keysOf_focusMain (t : List Event) :
    keysOf (Event.focusMain :: t) = keysOf t := rfl

@[simp] lemma keysOf_focusWizard (t : List Event) :
    keysOf (Event.focusWizard :: t) = keysOf t := rfl

@[simp] lemma keysOf_click (c : Int × Int) (l : String) (t : List Event) :
    keysOf (Event.click c l :: t) = keysOf t := rfl

@[simp] lemma keysOf_key (k : String) (t : List Event) :
    keysOf (Event.key k :: t) = k :: keysOf t := rfl

@[simp] lemma keysOf_write (s : String) (t : List Event) :
    keysOf (Event.write s :: t) = keysOf t := rfl

@[simp] lemma keysOf_capture (t : List Event) :
    keysOf (Event.capture :: t) = keysOf t := rfl

@[simp] lemma keysOf_sleepE (q : ℚ) (t : List Event) :
    keysOf (Event.sleepE q :: t) = keysOf t := rfl

@[simp] lemma keysOf_requestPause (k : PauseKind) (t : List Event) :
    keysOf (Event.requestPause k :: t) = keysOf t := rfl

@[simp] lemma keysOf_resumeObserved (k : PauseKind) (t : List Event) :
    keysOf (Event.resumeObserved k :: t) = keysOf t := rfl

@[simp] lemma keysOf_append (a b : List Event) :
    keysOf (a ++ b) = keysOf a ++ keysOf b := by
  simp [keysOf, List.filterMap_append]

@[simp] lemma clean_requestPause (k : PauseKind) (t : List Event) (p : Bool) :
    cleanWhilePaused (Event.requestPause k :: t) p = cleanWhilePaused t true := rfl

@[simp] lemma clean_resumeObserved (k : PauseKind) (t : List Event) (p : Bool) :
    cleanWhilePaused (Event.resumeObserved k :: t) p = cleanWhilePaused t false := rfl

@[simp] lemma clean_logLine (s : String) (t : List Event) (p : Bool) :
    cleanWhilePaused (Event.logLine s :: t) p = cleanWhilePaused t p := by cases p <;> rfl

@[simp] lemma clean_logAction (s : String) (t : List Event) (p : Bool) :
    cleanWhilePaused (Event.logAction s :: t) p = cleanWhilePaused t p := by cases p <;> rfl

@[simp] lemma clean_winQuery (t : List Event) (p : Bool) :
    cleanWhilePaused (Event.winQuery :: t) p = cleanWhilePaused t p := by cases p <;> rfl

@[simp] lemma clean_focusMain (t : List Event) (p : Bool) :
    cleanWhilePaused (Event.focusMain :: t) p = cleanWhilePaused t p := by cases p <;> rfl

@[simp] lemma clean_focusWizard (t : List Event) (p : Bool) :
    cleanWhilePaused (Event.focusWizard :: t) p = cleanWhilePaused t p := by cases p <;> rfl

@[simp] lemma clean_capture (t : List Event) (p : Bool) :
    cleanWhilePaused (Event.capture :: t) p = cleanWhilePaused t p := by cases p <;> rfl

@[simp] lemma clean_sleepE (q : ℚ) (t : List Event) (p : Bool) :
    cleanWhilePaused (Event.sleepE q :: t) p = cleanWhilePaused t p := by cases p <;> rfl

@[simp] lemma clean_key (k : String) (t : List Event) (p : Bool) :
    cleanWhilePaused (Event.key k :: t) p = (!p && cleanWhilePaused t p) := by cases p <;> rfl

@[simp] lemma clean_click (c : Int × Int) (l : String) (t : List Event) (p : Bool) :
    cleanWhilePaused (Event.click c l :: t) p = (!p && cleanWhilePaused t p) := by
  cases p <;> rfl

@[simp] lemma clean_write (s : String) (t : List Event) (p : Bool) :
    cleanWhilePaused (Event.write s :: t) p = (!p && cleanWhilePaused t p) := by
  cases p <;> rfl

@[simp] lemma clean_nil (p : Bool) : cleanWhilePaused [] p = true := rfl

@[simp] lemma state_requestPause (k : PauseKind) (t : List Event) (p : Bool) :
    pauseStateAfter (Event.requestPause k :: t) p = pauseStateAfter t true := rfl

@[simp] lemma state_resumeObserved (k : PauseKind) (t : List Event) (p : Bool) :
    pauseStateAfter (Event.resumeObserved k :: t) p = pauseStateAfter t false := rfl

@[simp] lemma state_logLine (s : String) (t : List Event) (p : Bool) :
    pauseStateAfter (Event.logLine s :: t) p = pauseStateAfter t p := rfl

@[simp] lemma state_logAction (s : String) (t : List Event) (p : Bool) :
    pauseStateAfter (Event.logAction s :: t) p = pauseStateAfter t p := rfl

@[simp] lemma state_winQuery (t : List Event) (p : Bool) :
    pauseStateAfter (Event.winQuery :: t) p = pauseStateAfter t p := rfl

@[simp] lemma state_focusMain (t : List Event) (p : Bool) :
    pauseStateAfter (Event.focusMain :: t) p = pauseStateAfter t p := rfl

@[simp] lemma state_focusWizard (t : List Event) (p : Bool) :
    pauseStateAfter (Event.focusWizard :: t) p = pauseStateAfter t p := rfl

@[simp] lemma state_capture (t : List Event) (p : Bool) :
    pauseStateAfter (Event.capture :: t) p = pauseStateAfter t p := rfl

@[simp] lemma state_sleepE (q : ℚ) (t : List Event) (p : Bool) :
    pauseStateAfter (Event.sleepE q :: t) p = pauseStateAfter t p := rfl

@[simp] lemma state_key (k : String) (t : List Event) (p : Bool) :
    pauseStateAfter (Event.key k :: t) p = pauseStateAfter t p := rfl

@[simp] lemma state_click (c : Int × Int) (l : String) (t : List Event) (p : Bool) :
    pauseStateAfter (Event.click c l :: t) p = pauseStateAfter t p := rfl

@[simp] lemma state_write (s : String) (t : List Event) (p : Bool) :
    pauseStateAfter (Event.write s :: t) p = pauseStateAfter t p := rfl

@[simp] lemma state_nil (p : Bool) : pauseStateAfter [] p = p := rfl

/-! ### Segment facts -/

/-- Plain segments inject nothing while paused and preserve the unpaused
state (pointwise version used below). -/
lemma state_of_plain (t : List Event) (h : plainSeg t = true) :
    pauseStateAfter t false = false :=
  (plain_clean t h).2

lemma keysOf_replicate_sleep (n : Nat) (q : ℚ) :
    keysOf (List.replicate n (Event.sleepE q)) = [] := by
  induction n with
  | zero => rfl
  | succ n ih => simp [List.replicate_succ, ih]

lemma keysOf_flatten (ls : List (List Event)) :
    keysOf ls.flatten = (ls.map keysOf).flatten := by
  induction ls with
  | nil => rfl
  | cons l ls ih => simp [ih]

lemma flatten_replicate_nil {α : Type} (n : Nat) :
    (List.replicate n ([] : List α)).flatten = [] := by
  induction n with
  | zero => rfl
  | succ n ih => simp [List.replicate_succ, ih]

lemma keysOf_pressEv (cfg : Config) (k : String) : keysOf (pressEv cfg k) = [k] := by
  unfold pressEv
  split <;> rfl

lemma keysOf_clickEv (cfg : Config) (coords : Int × Int) (label : String) :
    keysOf (clickEv cfg coords label) = [] := by
  unfold clickEv
  split <;> split <;> rfl

lemma keysOf_connectPhase (cfg : Config) :
    ∀ (counts : List Nat) (last : Option Nat),
      keysOf (connectPhase cfg counts last).1 = connectKeys counts := by
  intro counts
  induction counts with
  | nil => intro last; rfl
  | cons c rest ih =>
    intro last
    by_cases hc : c = 1
    · subst hc; rfl
    · by_cases hl : some c ≠ last <;> by_cases h2 : 1 < c <;>
        simp [connectPhase, connectKeys, hc, hl, h2, ih (some c)]

lemma keysOf_wizardPhase (f : Nat) : keysOf (wizardPhase f).1 = [] := by
  have h1 : keysOf [Event.winQuery, Event.sleepE 1] = [] := rfl
  by_cases hf : f < 15 <;>
    simp [wizardPhase, hf, keysOf_flatten, List.map_replicate, h1, flatten_replicate_nil]

lemma keysOf_subjectPause (r : Option Nat) : keysOf (subjectPause r).1 = [] := by
  cases r <;> simp [subjectPause, keysOf_replicate_sleep]

lemma keysOf_ocrLoop (cfg : Config) (sr : Option Nat) :
    ∀ (res : List OcrStatus) (prev : OcrStatus) (first : Bool),
      keysOf (ocrLoop cfg sr res prev first).1 = [] := by
  intro res
  induction res with
  | nil => intro prev first; rfl
  | cons r rest ih =>
    intro prev first
    cases r <;> simp [ocrLoop, ih, keysOf_subjectPause]

lemma keysOf_popupAux (counts : List Nat) : keysOf (popupAux counts).1 = [] := by
  induction counts with
  | nil => rfl
  | cons c rest ih =>
    by_cases hc : 2 < c <;> simp [popupAux, hc, ih]

lemma keysOf_popup (cfg : Config) (counts : List Nat) :
    keysOf (popup_detected_after_enter cfg counts).1 = [] := by
  simp only [popup_detected_after_enter]
  by_cases hp : (popupAux counts).2 = true
  · simp [hp, keysOf_popupAux counts]
  · simp only [hp, if_false, Bool.false_eq_true]
    rw [keysOf_append, keysOf_popupAux counts]
    split <;> rfl

lemma keysOf_corrLoop : ∀ rounds : List CorrRound, keysOf (corrLoop rounds).1 = [] := by
  intro rounds
  induction rounds with
  | nil => rfl
  | cons r rest ih =>
    have h1 : keysOf [Event.winQuery, Event.sleepE 0.1] = [] := rfl
    rcases hr : r.resumePolls with _ | n
    · simp [corrLoop, hr]
    · by_cases hb : r.backToTwo = true <;>
        simp [corrLoop, hr, hb, keysOf_replicate_sleep, keysOf_flatten,
              List.map_replicate, h1, flatten_replicate_nil, ih]

lemma keysOf_keySeq (cfg : Config) (b : Bool) : keysOf (keySeq cfg b) = seqKeys := by
  have h4 : keysOf (pressEv cfg "tab" ++ [Event.sleepE cfg.key_delay]) = ["tab"] := by
    rw [keysOf_append, keysOf_pressEv]
    rfl
  have hflat : ((List.replicate 4 ["tab"] : List (List String))).flatten
      = ["tab", "tab", "tab", "tab"] := rfl
  cases b <;>
    simp [keySeq, keysOf_pressEv, keysOf_flatten, List.map_replicate, h4, hflat, seqKeys]

lemma countCorr_append (a b : List Event) :
    countCorrPauses (a ++ b) = countCorrPauses a + countCorrPauses b := by
  simp [countCorrPauses, List.countP_append]

@[simp] lemma countCorr_nil : countCorrPauses [] = 0 := rfl

@[simp] lemma countCorr_req_corr (t : List Event) :
    countCorrPauses (Event.requestPause PauseKind.correction :: t) = countCorrPauses t + 1 := by
  simp [countCorrPauses, List.countP_cons]

@[simp] lemma countCorr_req_subj (t : List Event) :
    countCorrPauses (Event.requestPause PauseKind.subjectChoice :: t) = countCorrPauses t := by
  simp [countCorrPauses, List.countP_cons]

@[simp] lemma countCorr_logLine (s : String) (t : List Event) :
    countCorrPauses (Event.logLine s :: t) = countCorrPauses t := by
  simp [countCorrPauses, List.countP_cons]

@[simp] lemma countCorr_logAction (s : String) (t : List Event) :
    countCorrPauses (Event.logAction s :: t) = countCorrPauses t := by
  simp [countCorrPauses, List.countP_cons]

@[simp] lemma countCorr_winQuery (t : List Event) :
    countCorrPauses (Event.winQuery :: t) = countCorrPauses t := by
  simp [countCorrPauses, List.countP_cons]

@[simp] lemma countCorr_focusMain (t : List Event) :
    countCorrPauses (Event.focusMain :: t) = countCorrPauses t := by
  simp [countCorrPauses, List.countP_cons]

@[simp] lemma countCorr_focusWizard (t : List Event) :
    countCorrPauses (Event.focusWizard :: t) = countCorrPauses t := by
  simp [countCorrPauses, List.countP_cons]

@[simp] lemma countCorr_click (c : Int × Int) (l : String) (t : List Event) :
    countCorrPauses (Event.click c l :: t) = countCorrPauses t := by
  simp [countCorrPauses, List.countP_cons]

@[simp] lemma countCorr_key (k : String) (t : List Event) :
    countCorrPauses (Event.key k :: t) = countCorrPauses t := by
  simp [countCorrPauses, List.countP_cons]

@[simp] lemma countCorr_write (s : String) (t : List Event) :
    countCorrPauses (Event.write s :: t) = countCorrPauses t := by
  simp [countCorrPauses, List.countP_cons]

@[simp] lemma countCorr_capture (t : List Event) :
    countCorrPauses (Event.capture :: t) = countCorrPauses t := by
  simp [countCorrPauses, List.countP_cons]

@[simp] lemma countCorr_sleepE (q : ℚ) (t : List Event) :
    countCorrPauses (Event.sleepE q :: t) = countCorrPauses t := by
  simp [countCorrPauses, List.countP_cons]

@[simp] lemma countCorr_resume (k : PauseKind) (t : List Event) :
    countCorrPauses (Event.resumeObserved k :: t) = countCorrPauses t := by
  cases k <;> simp [countCorrPauses, List.countP_cons]

lemma countCorr_of_plain (t : List Event) (h : plainSeg t = true) :
    countCorrPauses t = 0 := by
  induction t with
  | nil => rfl
  | cons e rest ih =>
    simp only [plainSeg, List.all_cons, Bool.and_eq_true] at h
    have ih' := ih h.2
    cases e <;> simp_all [countCorrPauses, List.countP_cons, isPauseCtl]

lemma countCorr_replicate_sleep (n : Nat) (q : ℚ) :
    countCorrPauses (List.replicate n (Event.sleepE q)) = 0 :=
  countCorr_of_plain _ (plainSeg_replicate n _ rfl)

lemma countCorr_subjectPause (r : Option Nat) :
    countCorrPauses (subjectPause r).1 = 0 := by
  cases r <;> simp [subjectPause, countCorr_append, countCorr_replicate_sleep]

lemma countCorr_ocrLoop (cfg : Config) (sr : Option Nat) :
    ∀ (res : List OcrStatus) (prev : OcrStatus) (first : Bool),
      countCorrPauses (ocrLoop cfg sr res prev first).1 = 0 := by
  intro res
  induction res with
  | nil => intro prev first; rfl
  | cons r rest ih =>
    intro prev first
    cases r <;>
      simp [ocrLoop, countCorr_append, ih, countCorr_subjectPause]

lemma countCorr_corrLoop : ∀ rounds : List CorrRound,
    countCorrPauses (corrLoop rounds).1 = corrPausesUsed rounds := by
  intro rounds
  induction rounds with
  | nil => rfl
  | cons r rest ih =>
    have hflat : countCorrPauses (List.replicate r.innerPolls
        [Event.winQuery, Event.sleepE 0.1]).flatten = 0 :=
      countCorr_of_plain _ (plainSeg_flatten_replicate _ _ rfl)
    rcases hr : r.resumePolls with _ | n
    · simp [corrLoop, hr, corrPausesUsed]
    · cases hb : r.backToTwo <;>
        simp [corrLoop, hr, hb, corrPausesUsed, countCorr_append, hflat,
              countCorr_replicate_sleep, ih] <;>
        omega

lemma clean_replicate_sleep (n : Nat) (q : ℚ) (p : Bool) :
    cleanWhilePaused (List.replicate n (Event.sleepE q)) p = true := by
  induction n with
  | zero => rfl
  | succ n ih => simp [List.replicate_succ, ih]

lemma state_replicate_sleep (n : Nat) (q : ℚ) (p : Bool) :
    pauseStateAfter (List.replicate n (Event.sleepE q)) p = p := by
  induction n with
  | zero => rfl
  | succ n ih => simp [List.replicate_succ, ih]

lemma subjectPause_ok_iff (r : Option Nat) :
    (subjectPause r).2 = true ↔ ∃ n, r = some n := by
  cases r <;> simp [subjectPause]

lemma clean_subjectPause (r : Option Nat) :
    cleanWhilePaused (subjectPause r).1 false = true := by
  cases r <;>
    simp [subjectPause, cleanWhilePaused_append, pauseStateAfter_append,
          clean_replicate_sleep, state_replicate_sleep]

lemma state_subjectPause_some (n : Nat) :
    pauseStateAfter (subjectPause (some n)).1 false = false := by
  simp [subjectPause, pauseStateAfter_append, state_replicate_sleep]

lemma clean_ocrLoop (cfg : Config) (sr : Option Nat) :
    ∀ (res : List OcrStatus) (prev : OcrStatus) (first : Bool),
      cleanWhilePaused (ocrLoop cfg sr res prev first).1 false = true ∧
      ((ocrLoop cfg sr res prev first).2.2 = true →
        pauseStateAfter (ocrLoop cfg sr res prev first).1 false = false) := by
  intro res
  induction res with
  | nil =>
    intro prev first
    exact ⟨rfl, fun h => by cases h⟩
  | cons r rest ih =>
    intro prev first
    cases r with
    | title_missing =>
      obtain ⟨ih1, ih2⟩ := ih .title_missing false
      constructor
      · simp [ocrLoop, cleanWhilePaused_append, pauseStateAfter_append, ih1]
      · intro h
        simp only [ocrLoop] at h ⊢
        simp [pauseStateAfter_append, ih2 h]
    | label_missing =>
      obtain ⟨ih1, ih2⟩ := ih .label_missing false
      constructor
      · simp [ocrLoop, cleanWhilePaused_append, pauseStateAfter_append, ih1]
      · intro h
        simp only [ocrLoop] at h ⊢
        simp [pauseStateAfter_append, ih2 h]
    | multiple_users =>
      constructor
      · simp [ocrLoop, cleanWhilePaused_append, pauseStateAfter_append,
              clean_subjectPause]
      · intro h
        simp only [ocrLoop] at h
        obtain ⟨n, hn⟩ := (subjectPause_ok_iff sr).mp h
        subst hn
        simp [ocrLoop, pauseStateAfter_append, state_subjectPause_some]
    | single_user =>
      exact ⟨by simp [ocrLoop], fun _ => by simp [ocrLoop]⟩
    | ocr_failed =>
      exact ⟨by simp [ocrLoop, cleanWhilePaused_append],
             fun _ => by simp [ocrLoop, pauseStateAfter_append]⟩

lemma clean_corrLoop : ∀ rounds : List CorrRound,
    cleanWhilePaused (corrLoop rounds).1 false = true ∧
    ((corrLoop rounds).2 = true → pauseStateAfter (corrLoop rounds).1 false = false) := by
  intro rounds
  induction rounds with
  | nil => exact ⟨rfl, fun h => by cases h⟩
  | cons r rest ih =>
    have hplainflat : plainSeg (List.replicate r.innerPolls
        [Event.winQuery, Event.sleepE 0.1]).flatten = true :=
      plainSeg_flatten_replicate _ _ rfl
    have hflat1 : cleanWhilePaused (List.replicate r.innerPolls
        [Event.winQuery, Event.sleepE 0.1]).flatten false = true :=
      (plain_clean _ hplainflat).1
    have hflat2 : pauseStateAfter (List.replicate r.innerPolls
        [Event.winQuery, Event.sleepE 0.1]).flatten false = false :=
      (plain_clean _ hplainflat).2
    rcases hr : r.resumePolls with _ | n
    · refine ⟨by simp [corrLoop, hr], fun h => ?_⟩
      simp [corrLoop, hr] at h
    · cases hb : r.backToTwo with
      | true =>
        constructor
        · simp [corrLoop, hr, hb, cleanWhilePaused_append, pauseStateAfter_append,
                clean_replicate_sleep, state_replicate_sleep, hflat1, hflat2]
        · intro _
          simp [corrLoop, hr, hb, pauseStateAfter_append, state_replicate_sleep, hflat2]
      | false =>
        obtain ⟨ih1, ih2⟩ := ih
        constructor
        · simp [corrLoop, hr, hb, cleanWhilePaused_append, pauseStateAfter_append,
                clean_replicate_sleep, state_replicate_sleep, hflat1, hflat2, ih1]
        · intro h
          simp only [corrLoop, hr, hb] at h
          simp [corrLoop, hr, hb, pauseStateAfter_append, state_replicate_sleep, hflat2]
          exact ih2 (by simpa using h)

lemma connectPhase_ok_iff (cfg : Config) :
    ∀ (counts : List Nat) (last : Option Nat),
      (connectPhase cfg counts last).2 = true ↔ 1 ∈ counts := by
  intro counts
  induction counts with
  | nil => intro last; simp [connectPhase]
  | cons c rest ih =>
    intro last
    by_cases hc : c = 1
    · subst hc; simp [connectPhase]
    · rw [List.mem_cons]
      simp only [connectPhase, hc, if_false, ih (some c)]
      constructor
      · exact Or.inr
      · rintro (h | h)
        · exact absurd h.symm hc
        · exact h

lemma popupAux_snd (counts : List Nat) :
    (popupAux counts).2 = counts.any (fun c => decide (2 < c)) := by
  induction counts with
  | nil => rfl
  | cons c rest ih =>
    by_cases hc : 2 < c <;> simp [popupAux, hc, ih]

lemma popup_snd (cfg : Config) (counts : List Nat) :
    (popup_detected_after_enter cfg counts).2 = counts.any (fun c => decide (2 < c)) := by
  simp only [popup_detected_after_enter]
  by_cases hp : (popupAux counts).2 = true
  · simp [hp, ← popupAux_snd counts]
  · simp only [hp, if_false, Bool.false_eq_true]
    rw [← popupAux_snd counts]
    simp_all

lemma ocrLoop_decisive (cfg : Config) (sr : Option Nat) :
    ∀ (res : List OcrStatus) (prev : OcrStatus) (first : Bool),
      (ocrLoop cfg sr res prev first).2.1 = decisiveOf res := by
  intro res
  induction res with
  | nil => intro prev first; rfl
  | cons r rest ih =>
    intro prev first
    cases r <;> simp [ocrLoop, decisiveOf, ih]

lemma ocrLoop_done_iff (cfg : Config) (sr : Option Nat) :
    ∀ (res : List OcrStatus) (prev : OcrStatus) (first : Bool),
      (ocrLoop cfg sr res prev first).2.2 = true ↔
        ∃ st, decisiveOf res = some st ∧
          (st = OcrStatus.multiple_users → ∃ n, sr = some n) := by
  intro res
  induction res with
  | nil => intro prev first; simp [ocrLoop, decisiveOf]
  | cons r rest ih =>
    intro prev first
    cases r with
    | title_missing => simpa [ocrLoop, decisiveOf] using ih .title_missing false
    | label_missing => simpa [ocrLoop, decisiveOf] using ih .label_missing false
    | multiple_users => simp [ocrLoop, decisiveOf, subjectPause_ok_iff]
    | single_user => simp [ocrLoop, decisiveOf]
    | ocr_failed => simp [ocrLoop, decisiveOf]

lemma ocrLoop_shape_multiple (cfg : Config) (n : Nat) :
    ∀ (res : List OcrStatus) (prev : OcrStatus) (first : Bool),
      decisiveOf res = some OcrStatus.multiple_users →
      ∃ a b, (ocrLoop cfg (some n) res prev first).1
          = a ++ [Event.resumeObserved PauseKind.subjectChoice, Event.focusWizard] ++ b := by
  intro res
  induction res with
  | nil => intro prev first h; cases h
  | cons r rest ih =>
    intro prev first hd
    cases r with
    | title_missing =>
      obtain ⟨a, b, hab⟩ := ih .title_missing false (by simpa [decisiveOf] using hd)
      refine ⟨[Event.logLine (if prev = OcrStatus.title_missing then
          (if first then "Imaging\n" else "Re-imaging\n") else "Analyzing\n"),
        Event.sleepE (cfg.click_delay * 10), Event.capture] ++ a, b, ?_⟩
      simp [ocrLoop, hab]
    | label_missing =>
      obtain ⟨a, b, hab⟩ := ih .label_missing false (by simpa [decisiveOf] using hd)
      refine ⟨[Event.logLine (if prev = OcrStatus.title_missing then
          (if first then "Imaging\n" else "Re-imaging\n") else "Analyzing\n"),
        Event.sleepE (cfg.click_delay * 10), Event.capture] ++ a, b, ?_⟩
      simp [ocrLoop, hab]
    | multiple_users =>
      refine ⟨[Event.logLine (if prev = OcrStatus.title_missing then
          (if first then "Imaging\n" else "Re-imaging\n") else "Analyzing\n"),
        Event.sleepE (cfg.click_delay * 10), Event.capture,
        Event.logLine subjPausedMsg, Event.requestPause PauseKind.subjectChoice] ++
        List.replicate n (Event.sleepE 0.1), [Event.sleepE 0.2], ?_⟩
      simp [ocrLoop, subjectPause]
    | single_user => simp [decisiveOf] at hd
    | ocr_failed => simp [decisiveOf] at hd

/-- No injection event ever occurs between a pause request and the
observed resume, anywhere in a record's trace. -/
lemma processRecord_clean (cfg : Config) (netid : String) (env : RecordEnv) :
    noInjectionWhilePaused (processRecord cfg netid env).1 = true := by
  have hplC := plain_clean _ (plainSeg_connectPhase cfg env.connectCounts none)
  have hplW := plain_clean _ (plainSeg_wizardPhase env.wizardFailures)
  have hplP := plain_clean _ (plainSeg_popup cfg env.popupCounts)
  have hplA1 := plain_clean _ (plainSeg_clickEv cfg cfg.assign_access_offset "Assign Access")
  have hplA2 := plain_clean _ (plainSeg_clickEv cfg cfg.tab_2_click_rel "UWID tab")
  have hplA3 := plain_clean _ (plainSeg_clickEv cfg cfg.netid_field_click_rel "NetID field")
  have hplE := plain_clean _ (plainSeg_pressEv cfg "enter")
  obtain ⟨hoc, hos⟩ := clean_ocrLoop cfg env.subjectResume env.ocrResults .title_missing true
  obtain ⟨hcc, hcs⟩ := clean_corrLoop env.corrRounds
  unfold noInjectionWhilePaused processRecord
  dsimp only
  split
  · exact hplC.1
  · split
    · simp [cleanWhilePaused_append, pauseStateAfter_append,
            hplC.1, hplC.2, hplA1.1, hplA1.2, hplW.1]
    · split
      next st hmatch hok =>
        have hstate : pauseStateAfter
            (ocrLoop cfg env.subjectResume env.ocrResults .title_missing true).1 false
            = false := hos hok
        have hplKf := plain_clean _ (plainSeg_keySeq cfg false)
        have hplKt := plain_clean _ (plainSeg_keySeq cfg true)
        have hplKd := plain_clean _
          (plainSeg_keySeq cfg (decide (st = OcrStatus.single_user)))
        split
        next hpop =>
          split
          next hcr =>
            have hcstate := hcs hcr
            by_cases hst : st = OcrStatus.multiple_users <;>
              simp [hst, cleanWhilePaused_append, pauseStateAfter_append,
                    hplC.1, hplC.2, hplA1.1, hplA1.2, hplA2.1, hplA2.2, hplA3.1, hplA3.2,
                    hplE.1, hplE.2, hplW.1, hplW.2, hoc, hstate, hplP.1, hplP.2,
                    hcc, hcstate, hplKf.1, hplKf.2, hplKt.1, hplKt.2, hplKd.1, hplKd.2]
          next hcr =>
            by_cases hst : st = OcrStatus.multiple_users <;>
              simp [hst, cleanWhilePaused_append, pauseStateAfter_append,
                    hplC.1, hplC.2, hplA1.1, hplA1.2, hplA2.1, hplA2.2, hplA3.1, hplA3.2,
                    hplE.1, hplE.2, hplW.1, hplW.2, hoc, hstate, hplP.1, hplP.2, hcc]
        next hpop =>
          by_cases hst : st = OcrStatus.multiple_users <;>
            simp [hst, cleanWhilePaused_append, pauseStateAfter_append,
                  hplC.1, hplC.2, hplA1.1, hplA1.2, hplA2.1, hplA2.2, hplA3.1, hplA3.2,
                  hplE.1, hplE.2, hplW.1, hplW.2, hoc, hstate, hplP.1, hplP.2,
                  hplKf.1, hplKf.2, hplKt.1, hplKt.2, hplKd.1, hplKd.2]
      next hmatch =>
        simp [cleanWhilePaused_append, pauseStateAfter_append,
              hplC.1, hplC.2, hplA1.1, hplA1.2, hplA2.1, hplA2.2, hplA3.1, hplA3.2,
              hplE.1, hplE.2, hplW.1, hplW.2, hoc]

/-- Extending a middle-segment decomposition by a suffix. -/
lemma decomp_right {α : Type} {mid T : List α} (S : List α)
    (h : ∃ a b, T = a ++ mid ++ b) : ∃ a b, T ++ S = a ++ mid ++ b := by
  obtain ⟨a, b, rfl⟩ := h
  exact ⟨a, b ++ S, by simp⟩

/-- Extending a middle-segment decomposition by a prefix. -/
lemma decomp_left {α : Type} {mid T : List α} (S : List α)
    (h : ∃ a b, T = a ++ mid ++ b) : ∃ a b, S ++ T = a ++ mid ++ b := by
  obtain ⟨a, b, rfl⟩ := h
  exact ⟨S ++ a, b, by simp⟩

/-- The connect loop injects only Enter keys. -/
lemma connectKeys_no_tab : ∀ counts : List Nat, "tab" ∉ connectKeys counts := by
  intro counts
  induction counts with
  | nil => simp [connectKeys]
  | cons c rest ih =>
    by_cases hc : c = 1 <;> by_cases h2 : 1 < c <;>
      simp [connectKeys, hc, h2, ih]

/-- Under an environment that reaches validation with no popup spike,
the record completes and its injected keys are: the connect loop's
acknowledgement Enters, the step-1→2 Enter, the advance Enter (only
when the classification is not multiple-users), then the fixed
sequence. -/
lemma keysOf_processRecord_nopopup (cfg : Config) (netid : String) (env : RecordEnv)
    (st : OcrStatus)
    (hc : 1 ∈ env.connectCounts) (hw : env.wizardFailures < 15)
    (hd : decisiveOf env.ocrResults = some st)
    (hr : st = OcrStatus.multiple_users → ∃ n, env.subjectResume = some n)
    (hpop : env.popupCounts.any (fun c => decide (2 < c)) = false) :
    keysOf (processRecord cfg netid env).1
      = connectKeys env.connectCounts ++ ["enter"] ++
        (if st = OcrStatus.multiple_users then [] else ["enter"]) ++ seqKeys ∧
    (processRecord cfg netid env).2 = true := by
  have h1 : (connectPhase cfg env.connectCounts none).2 = true :=
    (connectPhase_ok_iff cfg _ none).mpr hc
  have h2 : (wizardPhase env.wizardFailures).2 = true := by simp [wizardPhase, hw]
  have hdec : (ocrLoop cfg env.subjectResume env.ocrResults .title_missing true).2.1
      = some st := by
    rw [ocrLoop_decisive]
    exact hd
  have hok : (ocrLoop cfg env.subjectResume env.ocrResults .title_missing true).2.2
      = true :=
    (ocrLoop_done_iff cfg _ _ _ _).mpr ⟨st, hd, hr⟩
  have hp2 : (popup_detected_after_enter cfg env.popupCounts).2 = false := by
    rw [popup_snd]
    exact hpop
  unfold processRecord
  dsimp only
  simp only [h1, h2, hdec, hok, hp2, Bool.not_true, Bool.false_eq_true, if_false]
  constructor
  · by_cases hst : st = OcrStatus.multiple_users <;>
      simp [hst, keysOf_connectPhase, keysOf_wizardPhase, keysOf_clickEv,
            keysOf_pressEv, keysOf_ocrLoop, keysOf_popup, keysOf_keySeq]
  · trivial

/-- Blocked records never reach the fixed key sequence: when the OCR
loop cannot complete, the record fails and no Tab is ever injected. -/
lemma processRecord_blocked (cfg : Config) (netid : String) (env : RecordEnv)
    (hok : (ocrLoop cfg env.subjectResume env.ocrResults .title_missing true).2.2 = false) :
    (processRecord cfg netid env).2 = false ∧
    "tab" ∉ keysOf (processRecord cfg netid env).1 := by
  unfold processRecord
  dsimp only
  split
  · exact ⟨rfl, by
      simp only [keysOf_connectPhase]
      exact connectKeys_no_tab _⟩
  · split
    · refine ⟨rfl, ?_⟩
      simp [keysOf_connectPhase, keysOf_wizardPhase, keysOf_clickEv]
      exact connectKeys_no_tab _
    · split
      next st hdec hok2 =>
        rw [hok] at hok2
        cases hok2
      next =>
        refine ⟨rfl, ?_⟩
        simp [keysOf_connectPhase, keysOf_wizardPhase, keysOf_clickEv, keysOf_pressEv,
              keysOf_ocrLoop]
        intro h
        exact connectKeys_no_tab _ h

/-- C3: whenever the classifier settles on multiple-users, the record
enters the subject-choice pause protocol: no injection event ever
occurs between a pause request and the observed resume; if resume is
never signalled the record never completes and never reaches the key
sequence (no Tab is injected); after an observed resume the very next
event re-focuses the wizard window; and the already-sent advance Enter
is not re-injected — with resume signalled and no validation popup the
injected keys are exactly the connect-loop Enters, the single step-1→2
Enter, and the fixed sequence, whereas a record whose classification is
not multiple-users injects the advance Enter as well. -/
theorem multiple_subjects_pause_protocol (cfg : Config) (netid : String) (env : RecordEnv)
    (hm : decisiveOf env.ocrResults = some OcrStatus.multiple_users) :
    noInjectionWhilePaused (processRecord cfg netid env).1 = true ∧
    (env.subjectResume = none →
      (processRecord cfg netid env).2 = false ∧
      "tab" ∉ keysOf (processRecord cfg netid env).1) ∧
    (∀ n, env.subjectResume = some n → 1 ∈ env.connectCounts → env.wizardFailures < 15 →
      ∃ a b, (processRecord cfg netid env).1
        = a ++ [Event.resumeObserved PauseKind.subjectChoice, Event.focusWizard] ++ b) ∧
    (∀ n, env.subjectResume = some n → 1 ∈ env.connectCounts → env.wizardFailures < 15 →
      env.popupCounts.any (fun c => decide (2 < c)) = false →
      keysOf (processRecord cfg netid env).1
        = connectKeys env.connectCounts ++ ["enter"] ++ seqKeys) ∧
    (∀ env2 : RecordEnv, ∀ st, decisiveOf env2.ocrResults = some st →
      st ≠ OcrStatus.multiple_users →
      1 ∈ env2.connectCounts → env2.wizardFailures < 15 →
      env2.popupCounts.any (fun c => decide (2 < c)) = false →
      keysOf (processRecord cfg netid env2).1
        = connectKeys env2.connectCounts ++ ["enter", "enter"] ++ seqKeys) := by
  refine ⟨processRecord_clean cfg netid env, ?_, ?_, ?_, ?_⟩
  · intro hnone
    apply processRecord_blocked
    rcases hx : (ocrLoop cfg env.subjectResume env.ocrResults .title_missing true).2.2 with _ | _
    · rfl
    · exfalso
      obtain ⟨st', hd', himp⟩ := (ocrLoop_done_iff cfg _ _ _ _).mp hx
      rw [hm] at hd'
      obtain rfl : OcrStatus.multiple_users = st' := Option.some_inj.mp hd'
      obtain ⟨n, hn⟩ := himp rfl
      rw [hnone] at hn
      cases hn
  · intro n hsome hc hw
    have h1 : (connectPhase cfg env.connectCounts none).2 = true :=
      (connectPhase_ok_iff cfg _ none).mpr hc
    have h2 : (wizardPhase env.wizardFailures).2 = true := by simp [wizardPhase, hw]
    have hdec : (ocrLoop cfg env.subjectResume env.ocrResults .title_missing true).2.1
        = some OcrStatus.multiple_users := by
      rw [ocrLoop_decisive]
      exact hm
    have hok : (ocrLoop cfg env.subjectResume env.ocrResults .title_missing true).2.2
        = true :=
      (ocrLoop_done_iff cfg _ _ _ _).mpr ⟨_, hm, fun _ => ⟨n, hsome⟩⟩
    have hshape : ∃ a b, (ocrLoop cfg env.subjectResume env.ocrResults .title_missing true).1
        = a ++ [Event.resumeObserved PauseKind.subjectChoice, Event.focusWizard] ++ b := by
      rw [hsome]
      exact ocrLoop_shape_multiple cfg n env.ocrResults .title_missing true hm
    unfold processRecord
    dsimp only
    simp only [h1, h2, hdec, hok, Bool.not_true, Bool.false_eq_true, if_false]
    split
    · split
      · apply decomp_right
        apply decomp_right
        apply decomp_right
        apply decomp_right
        apply decomp_right
        apply decomp_right
        apply decomp_right
        exact decomp_left _ hshape
      · apply decomp_right
        apply decomp_right
        apply decomp_right
        apply decomp_right
        apply decomp_right
        exact decomp_left _ hshape
    · apply decomp_right
      apply decomp_right
      apply decomp_right
      apply decomp_right
      apply decomp_right
      apply decomp_right
      exact decomp_left _ hshape
  · intro n hsome hc hw hpop
    have h := (keysOf_processRecord_nopopup cfg netid env OcrStatus.multiple_users
      hc hw hm (fun _ => ⟨n, hsome⟩) hpop).1
    simpa using h
  · intro env2 st hd2 hne hc2 hw2 hpop2
    have h := (keysOf_processRecord_nopopup cfg netid env2 st
      hc2 hw2 hd2 (fun hst => absurd hst hne) hpop2).1
    rw [if_neg hne] at h
    simpa using h

/-- The sample environment of a record whose classification is
multiple-users and whose operator presses Resume immediately. -/
def sampleEnvMulti : RecordEnv :=
  { connectCounts := [1], wizardFailures := 0,
    ocrResults := [OcrStatus.multiple_users], subjectResume := some 0,
    popupCounts := [], corrRounds := [] }

/-- Witness for C3: in the sample multiple-users record the advance
Enter is not re-injected. -/
theorem multiple_subjects_pause_protocol_witness :
    keysOf (processRecord default_config "alice1" sampleEnvMulti).1
      = connectKeys [1] ++ ["enter"] ++ seqKeys :=
  (multiple_subjects_pause_protocol default_config "alice1" sampleEnvMulti rfl).2.2.2.1
    0 rfl (by decide) (by decide) rfl

/-- Every entered correction round requests at least one pause. -/
lemma corrPausesUsed_pos (r : CorrRound) (rest : List CorrRound) :
    0 < corrPausesUsed (r :: rest) := by
  rcases hr : r.resumePolls with _ | n
  · simp [corrPausesUsed, hr]
  · by_cases hb : r.backToTwo = true <;> simp [corrPausesUsed, hr, hb]

/-- The correction loop proceeds exactly when a round resumes and sees
the count back at two. -/
lemma corrLoop_ok : ∀ rounds : List CorrRound,
    (corrLoop rounds).2 = corrResolved rounds := by
  intro rounds
  induction rounds with
  | nil => rfl
  | cons r rest ih =>
    rcases hr : r.resumePolls with _ | n
    · simp [corrLoop, corrResolved, hr]
    · cases hb : r.backToTwo <;> simp [corrLoop, corrResolved, hr, hb, ih]

/-- C4: for a record that reaches post-advance validation, if no polled
window count exceeds the baseline of two during the observation window
then no correction pause is requested; if some polled count exceeds two
then the run requests exactly the correction pauses of the supplied
rounds (at least one), does not proceed to the remaining key sequence
while the count has not returned to exactly two (re-entering the pause
each round, and never completing if it never returns), and proceeds
with the key sequence exactly when a round observes the count back at
two. -/
theorem post_advance_validation_pause (cfg : Config) (netid : String) (env : RecordEnv)
    (st : OcrStatus)
    (hc : 1 ∈ env.connectCounts) (hw : env.wizardFailures < 15)
    (hd : decisiveOf env.ocrResults = some st)
    (hr : st = OcrStatus.multiple_users → ∃ n, env.subjectResume = some n) :
    (env.popupCounts.any (fun c => decide (2 < c)) = false →
       countCorrPauses (processRecord cfg netid env).1 = 0) ∧
    (env.popupCounts.any (fun c => decide (2 < c)) = true →
       countCorrPauses (processRecord cfg netid env).1 = corrPausesUsed env.corrRounds ∧
       (env.corrRounds ≠ [] → 0 < corrPausesUsed env.corrRounds) ∧
       (corrResolved env.corrRounds = false →
          (processRecord cfg netid env).2 = false ∧
          "tab" ∉ keysOf (processRecord cfg netid env).1) ∧
       (corrResolved env.corrRounds = true →
          (processRecord cfg netid env).2 = true ∧
          ∃ a, (processRecord cfg netid env).1
            = a ++ keySeq cfg (decide (st = OcrStatus.single_user)) ++
              [Event.logLine ("Completed " ++ netid ++ "\n\n")])) := by
  have h1 : (connectPhase cfg env.connectCounts none).2 = true :=
    (connectPhase_ok_iff cfg _ none).mpr hc
  have h2 : (wizardPhase env.wizardFailures).2 = true := by simp [wizardPhase, hw]
  have hdec : (ocrLoop cfg env.subjectResume env.ocrResults .title_missing true).2.1
      = some st := by
    rw [ocrLoop_decisive]
    exact hd
  have hok : (ocrLoop cfg env.subjectResume env.ocrResults .title_missing true).2.2
      = true :=
    (ocrLoop_done_iff cfg _ _ _ _).mpr ⟨st, hd, hr⟩
  have hCp := countCorr_of_plain _ (plainSeg_connectPhase cfg env.connectCounts none)
  have hWp := countCorr_of_plain _ (plainSeg_wizardPhase env.wizardFailures)
  have hPp := countCorr_of_plain _ (plainSeg_popup cfg env.popupCounts)
  have hA1p := countCorr_of_plain _ (plainSeg_clickEv cfg cfg.assign_access_offset "Assign Access")
  have hA2p := countCorr_of_plain _ (plainSeg_clickEv cfg cfg.tab_2_click_rel "UWID tab")
  have hA3p := countCorr_of_plain _ (plainSeg_clickEv cfg cfg.netid_field_click_rel "NetID field")
  have hEp := countCorr_of_plain _ (plainSeg_pressEv cfg "enter")
  have hKp := countCorr_of_plain _
    (plainSeg_keySeq cfg (decide (st = OcrStatus.single_user)))
  have hKf := countCorr_of_plain _ (plainSeg_keySeq cfg false)
  have hKt := countCorr_of_plain _ (plainSeg_keySeq cfg true)
  have hOp := countCorr_ocrLoop cfg env.subjectResume env.ocrResults .title_missing true
  constructor
  · intro hpop
    have hp2 : (popup_detected_after_enter cfg env.popupCounts).2 = false := by
      rw [popup_snd]
      exact hpop
    unfold processRecord
    dsimp only
    simp only [h1, h2, hdec, hok, hp2, Bool.not_true, Bool.false_eq_true, if_false]
    by_cases hst : st = OcrStatus.multiple_users <;>
      simp [hst, countCorr_append, hCp, hWp, hPp, hA1p, hA2p, hA3p, hEp, hKp, hKf, hKt, hOp]
  · intro hpop
    have hp2 : (popup_detected_after_enter cfg env.popupCounts).2 = true := by
      rw [popup_snd]
      exact hpop
    refine ⟨?_, ?_, ?_, ?_⟩
    · unfold processRecord
      dsimp only
      simp only [h1, h2, hdec, hok, hp2, Bool.not_true, Bool.false_eq_true, if_false,
                 eq_self_iff_true, if_true]
      split
      · by_cases hst : st = OcrStatus.multiple_users <;>
          simp [hst, countCorr_append, hCp, hWp, hPp, hA1p, hA2p, hA3p, hEp, hKp, hKf, hKt,
                hOp, countCorr_corrLoop]
      · by_cases hst : st = OcrStatus.multiple_users <;>
          simp [hst, countCorr_append, hCp, hWp, hPp, hA1p, hA2p, hA3p, hEp, hOp,
                countCorr_corrLoop]
    · intro hne
      rcases henv : env.corrRounds with _ | ⟨r, rest⟩
      · exact absurd henv hne
      · exact corrPausesUsed_pos r rest
    · intro hres
      have hcr : (corrLoop env.corrRounds).2 = false := by
        rw [corrLoop_ok]
        exact hres
      unfold processRecord
      dsimp only
      simp only [h1, h2, hdec, hok, hp2, hcr, Bool.not_true, Bool.false_eq_true, if_false,
                 eq_self_iff_true, if_true]
      refine ⟨trivial, ?_⟩
      by_cases hst : st = OcrStatus.multiple_users <;>
        simp [hst, keysOf_connectPhase, keysOf_wizardPhase, keysOf_clickEv,
              keysOf_pressEv, keysOf_ocrLoop, keysOf_popup, keysOf_corrLoop] <;>
        exact connectKeys_no_tab _
    · intro hres
      have hcr : (corrLoop env.corrRounds).2 = true := by
        rw [corrLoop_ok]
        exact hres
      unfold processRecord
      dsimp only
      simp only [h1, h2, hdec, hok, hp2, hcr, Bool.not_true, Bool.false_eq_true, if_false,
                 eq_self_iff_true, if_true]
      exact ⟨trivial, ⟨_, rfl⟩⟩

/-- The sample environment of a record whose window count spikes to 3
right after the identifier is submitted, and whose operator resolves
the correction in one round. -/
def sampleEnvPopup : RecordEnv :=
  { connectCounts := [1], wizardFailures := 0,
    ocrResults := [OcrStatus.single_user], subjectResume := none,
    popupCounts := [3], corrRounds := [CorrRound.mk (some 0) 0 true] }

/-- Witness for C4: a simulated spike to 3 after submitting alice1
triggers exactly one correction pause, and the record still completes
because the count returns to two. -/
theorem post_advance_validation_pause_witness :
    countCorrPauses (processRecord default_config "alice1" sampleEnvPopup).1 = 1 ∧
    (processRecord default_config "alice1" sampleEnvPopup).2 = true := by
  have h := (post_advance_validation_pause default_config "alice1" sampleEnvPopup
    OcrStatus.single_user (by decide) (by decide) rfl
    (fun hx => absurd hx (by decide))).2 rfl
  exact ⟨h.1, (h.2.2.2 rfl).1⟩

/-! ### Empty identifier list (C7) -/

/-- A run environment with nothing in it: no observed windows, no OCR
outcomes, no rounds. -/
def emptyRunEnv : RunEnv :=
  { initConnectCounts := [],
    records := fun _ =>
      { connectCounts := [], wizardFailures := 0, ocrResults := [],
        subjectResume := none, popupCounts := [], corrRounds := [] } }

/-- C7: on an empty identifier list, any run with non-negative delays
emits exactly the single "No NetIDs provided." log line and returns
normally without a single window query, click, key press, text write,
focus change, or capture. -/
theorem empty_run_single_log (cfg : Config) (env : RunEnv)
    (h : 0 ≤ cfg.click_delay ∧ 0 ≤ cfg.key_delay ∧ 0 ≤ cfg.between_users_delay) :
    run_assign_access [] cfg env = ([Event.logLine "No NetIDs provided.\n"], true, 0) ∧
    (run_assign_access [] cfg env).1.countP isLogEvent = 1 ∧
    (run_assign_access [] cfg env).1.filter isOperationEvent = [] :=
  ⟨rfl, rfl, rfl⟩

/-- Witness for C7 at the default configuration and the empty
environment. -/
theorem empty_run_single_log_witness :
    run_assign_access [] default_config emptyRunEnv
      = ([Event.logLine "No NetIDs provided.\n"], true, 0) :=
  (empty_run_single_log default_config emptyRunEnv
    ⟨by norm_num [default_config], by norm_num [default_config],
     by norm_num [default_config]⟩).1

/-! ### Noninterference of the between-records delay (C9)

`between_users_delay` is carried by `Config`, persisted and restored by
the settings round-trip, but never read anywhere in `run_assign_access`
or the helpers it calls.  Two configurations differing only in that
field are therefore observationally identical: same events (logs,
clicks, keys, writes, sleeps), same completion flag, same processed
count. -/

lemma bud_click_delay (cfg : Config) (d : ℚ) :
    ({cfg with between_users_delay := d} : Config).click_delay = cfg.click_delay := rfl

lemma bud_key_delay (cfg : Config) (d : ℚ) :
    ({cfg with between_users_delay := d} : Config).key_delay = cfg.key_delay := rfl

lemma bud_assign_offset (cfg : Config) (d : ℚ) :
    ({cfg with between_users_delay := d} : Config).assign_access_offset
      = cfg.assign_access_offset := rfl

lemma bud_tab2 (cfg : Config) (d : ℚ) :
    ({cfg with between_users_delay := d} : Config).tab_2_click_rel = cfg.tab_2_click_rel := rfl

lemma bud_netid_field (cfg : Config) (d : ℚ) :
    ({cfg with between_users_delay := d} : Config).netid_field_click_rel
      = cfg.netid_field_click_rel := rfl

lemma bud_debug (cfg : Config) (d : ℚ) :
    ({cfg with between_users_delay := d} : Config).debug_actions = cfg.debug_actions := rfl

lemma pressEv_bud (cfg : Config) (d : ℚ) (k : String) :
    pressEv {cfg with between_users_delay := d} k = pressEv cfg k := rfl

lemma clickEv_bud (cfg : Config) (d : ℚ) (coords : Int × Int) (label : String) :
    clickEv {cfg with between_users_delay := d} coords label = clickEv cfg coords label := rfl

lemma keySeq_bud (cfg : Config) (d : ℚ) (b : Bool) :
    keySeq {cfg with between_users_delay := d} b = keySeq cfg b := rfl

lemma popup_bud (cfg : Config) (d : ℚ) (counts : List Nat) :
    popup_detected_after_enter {cfg with between_users_delay := d} counts
      = popup_detected_after_enter cfg counts := rfl

lemma connectPhase_bud (cfg : Config) (d : ℚ) :
    ∀ (counts : List Nat) (last : Option Nat),
      connectPhase {cfg with between_users_delay := d} counts last
        = connectPhase cfg counts last := by
  intro counts
  induction counts with
  | nil => intro last; rfl
  | cons c rest ih =>
    intro last
    by_cases hc : c = 1
    · subst hc; rfl
    · simp only [connectPhase, hc, if_false, ih (some c)]

lemma ocrLoop_bud (cfg : Config) (d : ℚ) (sr : Option Nat) :
    ∀ (res : List OcrStatus) (prev : OcrStatus) (first : Bool),
      ocrLoop {cfg with between_users_delay := d} sr res prev first
        = ocrLoop cfg sr res prev first := by
  intro res
  induction res with
  | nil => intro prev first; rfl
  | cons r rest ih =>
    intro prev first
    cases r <;> simp only [ocrLoop, ih]

lemma processRecord_bud (cfg : Config) (d : ℚ) (netid : String) (env : RecordEnv) :
    processRecord {cfg with between_users_delay := d} netid env
      = processRecord cfg netid env := by
  unfold processRecord
  simp only [connectPhase_bud, ocrLoop_bud, popup_bud, keySeq_bud, pressEv_bud, clickEv_bud,
             bud_click_delay, bud_key_delay, bud_assign_offset, bud_tab2, bud_netid_field,
             bud_debug]

lemma runRecords_bud (cfg : Config) (d : ℚ) (recEnv : Nat → RecordEnv) :
    ∀ (netids : List String) (i : Nat),
      runRecords {cfg with between_users_delay := d} recEnv netids i
        = runRecords cfg recEnv netids i := by
  intro netids
  induction netids with
  | nil => intro i; rfl
  | cons n rest ih =>
    intro i
    simp only [runRecords, processRecord_bud, ih (i + 1)]

/-- C9: for every identifier list and environment, changing only the
between-records delay of a configuration leaves the entire run — its
event trace (log lines, clicks, keys, text writes, waits), completion
flag, and processed count — unchanged, because the field is never read
by the run. -/
theorem between_users_delay_noninterference (netids : List String) (cfg : Config) (d : ℚ)
    (env : RunEnv) :
    run_assign_access netids {cfg with between_users_delay := d} env
      = run_assign_access netids cfg env := by
  unfold run_assign_access
  simp only [connectPhase_bud, runRecords_bud]
